import Mathlib

/-!
# Verification of the AwkwardForth virtual machine

A shallow embedding of `src/libawkward/forth/ForthMachine.cpp`: the
tokenizer, the single-pass compiler (`parse`/`compile`), the execution
engine (`internal_run`, `step`, `resume`, `begin`, `run`) and the
decompiler (`decompiled`), together with theorems settling the frozen
claims about this code.

Conventions of the embedding:
* Data-stack cells and bytecodes are modelled as mathematical `Int`.
  C++ signed arithmetic agrees with `Int` on every input on which it is
  defined (signed overflow is undefined behaviour in the source
  language); the explicit casts `(int32_t)`/`(int64_t)` performed by the
  compiler are modelled by `toInt32`/`toInt64` (reduction mod `2 ^ w`).
* Small helper members of the class that live in the header
  (`stack_pop2`, `bytecodes_pointer_push`, the do-loop frame accessors,
  `is_ready`, `is_done`) are not part of the provided sources; they are
  modelled from the spec where indicated.
* Runtime errors, compile errors and C++ exceptions are `Except`
  values; source positions and message texts are not modelled (the spec
  declares identical message strings a non-goal).
-/

namespace AwkwardForth

set_option maxRecDepth 100000

/-! ## Instruction constants (preprocessor macros in the source) -/

-- parser flags (parsers are combined bitwise and then bit-inverted to be negative)
def READ_DIRECT : Nat := 1
def READ_REPEATED : Nat := 2
def READ_BIGENDIAN : Nat := 4
-- parser sequential values (starting in the fourth bit); READ_MASK selects bits 3..6
def READ_MASK : Nat := 0x78
def READ_BOOL : Nat := 0x8 * 1
def READ_INT8 : Nat := 0x8 * 2
def READ_INT16 : Nat := 0x8 * 3
def READ_INT32 : Nat := 0x8 * 4
def READ_INT64 : Nat := 0x8 * 5
def READ_INTP : Nat := 0x8 * 6
def READ_UINT8 : Nat := 0x8 * 7
def READ_UINT16 : Nat := 0x8 * 8
def READ_UINT32 : Nat := 0x8 * 9
def READ_UINT64 : Nat := 0x8 * 10
def READ_UINTP : Nat := 0x8 * 11
def READ_FLOAT32 : Nat := 0x8 * 12
def READ_FLOAT64 : Nat := 0x8 * 13

-- instructions from special parsing rules
def CODE_LITERAL : Int := 0
def CODE_HALT : Int := 1
def CODE_PAUSE : Int := 2
def CODE_IF : Int := 3
def CODE_IF_ELSE : Int := 4
def CODE_DO : Int := 5
def CODE_DO_STEP : Int := 6
def CODE_AGAIN : Int := 7
def CODE_UNTIL : Int := 8
def CODE_WHILE : Int := 9
def CODE_EXIT : Int := 10
def CODE_PUT : Int := 11
def CODE_INC : Int := 12
def CODE_GET : Int := 13
def CODE_LEN_INPUT : Int := 14
def CODE_POS : Int := 15
def CODE_END : Int := 16
def CODE_SEEK : Int := 17
def CODE_SKIP : Int := 18
def CODE_WRITE : Int := 19
def CODE_LEN_OUTPUT : Int := 20
def CODE_REWIND : Int := 21
-- generic builtin instructions
def CODE_I : Int := 22
def CODE_J : Int := 23
def CODE_K : Int := 24
def CODE_DUP : Int := 25
def CODE_DROP : Int := 26
def CODE_SWAP : Int := 27
def CODE_OVER : Int := 28
def CODE_ROT : Int := 29
def CODE_NIP : Int := 30
def CODE_TUCK : Int := 31
def CODE_ADD : Int := 32
def CODE_SUB : Int := 33
def CODE_MUL : Int := 34
def CODE_DIV : Int := 35
def CODE_MOD : Int := 36
def CODE_DIVMOD : Int := 37
def CODE_NEGATE : Int := 38
def CODE_ADD1 : Int := 39
def CODE_SUB1 : Int := 40
def CODE_ABS : Int := 41
def CODE_MIN : Int := 42
def CODE_MAX : Int := 43
def CODE_EQ : Int := 44
def CODE_NE : Int := 45
def CODE_GT : Int := 46
def CODE_GE : Int := 47
def CODE_LT : Int := 48
def CODE_LE : Int := 49
def CODE_EQ0 : Int := 50
def CODE_INVERT : Int := 51
def CODE_AND : Int := 52
def CODE_OR : Int := 53
def CODE_XOR : Int := 54
def CODE_LSHIFT : Int := 55
def CODE_RSHIFT : Int := 56
def CODE_FALSE : Int := 57
def CODE_TRUE : Int := 58
-- beginning of the user-defined dictionary
def BOUND_DICTIONARY : Int := 59

/-- The runtime error enum `util::ForthError`. -/
inductive ForthError where
  | none
  | not_ready
  | is_done
  | user_halt
  | recursion_depth_exceeded
  | stack_underflow
  | stack_overflow
  | read_beyond
  | seek_beyond
  | skip_beyond
  | rewind_beyond
  | division_by_zero
  deriving DecidableEq, Repr

/-- The output element types `util::dtype` that an `output` declaration accepts. -/
inductive Dtype where
  | boolean
  | int8
  | int16
  | int32
  | int64
  | uint8
  | uint16
  | uint32
  | uint64
  | float32
  | float64
  deriving DecidableEq, Repr

/-- `reserved_words_` from the source. -/
def reservedWords : List String :=
  ["(", ")", "\\", "\n", "",
   ":", ";", "recurse",
   "variable", "input", "output",
   "halt", "pause",
   "if", "then", "else",
   "do", "loop", "+loop",
   "begin", "again", "until", "while", "repeat",
   "exit",
   "!", "+!", "@",
   "len", "pos", "end", "seek", "skip",
   "<-", "stack", "rewind"]

/-- `input_parser_words_` from the source. -/
def inputParserWords : List String :=
  ["?->", "b->", "h->", "i->", "q->", "n->", "B->", "H->", "I->", "Q->", "N->", "f->", "d->",
   "!h->", "!i->", "!q->", "!n->", "!H->", "!I->", "!Q->", "!N->", "!f->", "!d->",
   "#?->", "#b->", "#h->", "#i->", "#q->", "#n->", "#B->", "#H->", "#I->", "#Q->", "#N->", "#f->", "#d->",
   "#!h->", "#!i->", "#!q->", "#!n->", "#!H->", "#!I->", "#!Q->", "#!N->", "#!f->", "#!d->"]

/-- `output_dtype_words_` from the source. -/
def outputDtypeWords : List (String × Dtype) :=
  [("bool", Dtype.boolean),
   ("int8", Dtype.int8),
   ("int16", Dtype.int16),
   ("int32", Dtype.int32),
   ("int64", Dtype.int64),
   ("uint8", Dtype.uint8),
   ("uint16", Dtype.uint16),
   ("uint32", Dtype.uint32),
   ("uint64", Dtype.uint64),
   ("float32", Dtype.float32),
   ("float64", Dtype.float64)]

/-- `generic_builtin_words_` from the source. -/
def genericBuiltinWords : List (String × Int) :=
  [("i", CODE_I), ("j", CODE_J), ("k", CODE_K),
   ("dup", CODE_DUP), ("drop", CODE_DROP), ("swap", CODE_SWAP),
   ("over", CODE_OVER), ("rot", CODE_ROT), ("nip", CODE_NIP), ("tuck", CODE_TUCK),
   ("+", CODE_ADD), ("-", CODE_SUB), ("*", CODE_MUL), ("/", CODE_DIV),
   ("mod", CODE_MOD), ("/mod", CODE_DIVMOD), ("negate", CODE_NEGATE),
   ("1+", CODE_ADD1), ("1-", CODE_SUB1), ("abs", CODE_ABS),
   ("min", CODE_MIN), ("max", CODE_MAX),
   ("=", CODE_EQ), ("<>", CODE_NE), (">", CODE_GT), (">=", CODE_GE),
   ("<", CODE_LT), ("<=", CODE_LE), ("0=", CODE_EQ0),
   ("invert", CODE_INVERT), ("and", CODE_AND), ("or", CODE_OR), ("xor", CODE_XOR),
   ("lshift", CODE_LSHIFT), ("rshift", CODE_RSHIFT),
   ("false", CODE_FALSE), ("true", CODE_TRUE)]

/-! ## Integer casts

`(int32_t)` and `(int64_t)` casts in the source: two's-complement
reduction of a mathematical integer into the signed range. -/

/-- Two's-complement reduction into `[-2 ^ 31, 2 ^ 31)`, the cast `(int32_t)x`. -/
def toInt32 (x : Int) : Int := (x + 2 ^ 31) % 2 ^ 32 - 2 ^ 31

/-- Two's-complement interpretation of an unsigned 64-bit value, the cast
`(int64_t)x` applied to an `unsigned long` result of `std::stoul`. -/
def toInt64 (n : Nat) : Int :=
  let m : Nat := n % 2 ^ 64
  if m < 2 ^ 63 then (m : Int) else (m : Int) - 2 ^ 64

/-! ## Tokenizer (`ForthMachineOf::tokenize`)

Whitespace (space, CR, tab, VT, FF) separates tokens; a newline is
emitted as its own one-character token.  The per-token line/column
information feeds only the text of compile error messages, which the
spec declares a non-goal, and is not modelled. -/

/-- The five separator characters of `tokenize` (newline handled separately). -/
def isSep (c : Char) : Bool :=
  c = ' ' || c = '\r' || c = '\t' || c = Char.ofNat 11 || c = Char.ofNat 12

/-- Core of `tokenize`: `acc` is the pending (reversed) token characters. -/
def tokenizeAux : List Char → List Char → List String
  | [], acc => if acc.isEmpty then [] else [String.mk acc.reverse]
  | c :: rest, acc =>
    if isSep c then
      (if acc.isEmpty then [] else [String.mk acc.reverse]) ++ tokenizeAux rest []
    else if c = '\n' then
      (if acc.isEmpty then [] else [String.mk acc.reverse]) ++ ["\n"] ++ tokenizeAux rest []
    else
      tokenizeAux rest (c :: acc)

/-- `ForthMachineOf::tokenize`, producing the token vector. -/
def tokenize (source : String) : List String :=
  tokenizeAux source.data []

/-! ## `std::stoul` and `ForthMachineOf::is_integer`

`is_integer` calls `std::stoul` (base 10, or base 16 after a literal
`0x` prefix), treats `std::invalid_argument` as "not an integer" and
lets `std::out_of_range` escape.  `std::stoul` itself (C++ standard
library, modelled from its specification): skip whitespace, accept an
optional sign (a minus sign wraps the value modulo `2 ^ 64`), in base 16
accept an optional `0x` prefix when a hexadecimal digit follows, then
consume the longest non-empty digit sequence; no digits is
`invalid_argument`, a value exceeding `ULONG_MAX` is `out_of_range`. -/

inductive StoulErr where
  | invalid
  | outOfRange
  deriving DecidableEq, Repr

def isDigit10 (c : Char) : Bool := '0' ≤ c && c ≤ '9'

def digitVal10 (c : Char) : Nat := c.toNat - '0'.toNat

def isDigit16 (c : Char) : Bool :=
  isDigit10 c || ('a' ≤ c && c ≤ 'f') || ('A' ≤ c && c ≤ 'F')

def digitVal16 (c : Char) : Nat :=
  if isDigit10 c then digitVal10 c
  else if 'a' ≤ c && c ≤ 'f' then c.toNat - 'a'.toNat + 10
  else c.toNat - 'A'.toNat + 10

/-- Accumulate the longest digit prefix; returns the value and whether at
least one digit was consumed. -/
def stoulDigits (isDig : Char → Bool) (val : Char → Nat) (base : Nat) :
    List Char → Nat → Bool → Nat × Bool
  | [], acc, any => (acc, any)
  | c :: rest, acc, any =>
    if isDig c then stoulDigits isDig val base rest (acc * base + val c) true
    else (acc, any)

def isSpaceChar (c : Char) : Bool :=
  c = ' ' || c = '\t' || c = '\n' || c = '\r' || c = Char.ofNat 11 || c = Char.ofNat 12

/-- The optional sign accepted by `strtoul` before the digits. -/
def stoulSign : List Char → Bool × List Char
  | '-' :: rest => (true, rest)
  | '+' :: rest => (false, rest)
  | cs => (false, cs)

/-- `std::stoul(s, nullptr, base)` for `base ∈ {10, 16}` (modelled from the
C++ standard library specification of `strtoul`). -/
def stoul (s : String) (base : Nat) : Except StoulErr Nat :=
  let cs := s.data.dropWhile isSpaceChar
  let (neg, cs) := stoulSign cs
  let cs :=
    -- in base 16 an optional 0x / 0X prefix is consumed when a hex digit follows
    if base = 16 then
      match cs with
      | '0' :: x :: d :: rest =>
        if (x = 'x' || x = 'X') && isDigit16 d then d :: rest else cs
      | _ => cs
    else cs
  let (v, any) :=
    if base = 16 then stoulDigits isDigit16 digitVal16 16 cs 0 false
    else stoulDigits isDigit10 digitVal10 10 cs 0 false
  if !any then Except.error StoulErr.invalid
  else if v ≥ 2 ^ 64 then Except.error StoulErr.outOfRange
  else Except.ok (if neg then (2 ^ 64 - v) % 2 ^ 64 else v)

/-- `ForthMachineOf::is_integer`.  `Except.ok (some v)` is "returns true with
value `v`" (the `(int64_t)` cast applied), `Except.ok none` is "returns
false", and `Except.error` models the uncaught `std::out_of_range`. -/
def is_integer (word : String) : Except StoulErr (Option Int) :=
  if word.length ≥ 2 && word.take 2 = "0x" then
    match stoul (word.drop 2) 16 with
    | Except.ok v => Except.ok (some (toInt64 v))
    | Except.error StoulErr.invalid => Except.ok none
    | Except.error StoulErr.outOfRange => Except.error StoulErr.outOfRange
  else
    match stoul word 10 with
    | Except.ok v => Except.ok (some (toInt64 v))
    | Except.error StoulErr.invalid => Except.ok none
    | Except.error StoulErr.outOfRange => Except.error StoulErr.outOfRange

/-! ## Compiler state and predicates -/

/-- Compile-time tables of the machine, together with the `dictionary`
vector of segments that `parse` threads through (`std::vector<std::vector<I>>
dictionary` in `compile`).  Segment ids in `dictionaryBytecodes` and in
operands are modelled exactly (the source routes them through `I = int32_t`,
which is value-preserving while there are fewer than `2 ^ 31 - 59`
segments). -/
structure CompilerState where
  dictionary : List (List Int)
  variableNames : List String
  inputNames : List String
  outputNames : List String
  outputDtypes : List Dtype
  dictionaryNames : List String
  dictionaryBytecodes : List Int
  deriving Repr

def emptyCompilerState : CompilerState :=
  { dictionary := []
    variableNames := []
    inputNames := []
    outputNames := []
    outputDtypes := []
    dictionaryNames := []
    dictionaryBytecodes := [] }

/-- `ForthMachineOf::is_variable`. -/
def CompilerState.is_variable (st : CompilerState) (word : String) : Bool :=
  st.variableNames.contains word

/-- `ForthMachineOf::is_input`. -/
def CompilerState.is_input (st : CompilerState) (word : String) : Bool :=
  st.inputNames.contains word

/-- `ForthMachineOf::is_output`. -/
def CompilerState.is_output (st : CompilerState) (word : String) : Bool :=
  st.outputNames.contains word

/-- `ForthMachineOf::is_reserved`. -/
def is_reserved (word : String) : Bool :=
  reservedWords.contains word ||
  inputParserWords.contains word ||
  (outputDtypeWords.map Prod.fst).contains word ||
  (genericBuiltinWords.map Prod.fst).contains word

/-- `ForthMachineOf::is_defined`. -/
def CompilerState.is_defined (st : CompilerState) (word : String) : Bool :=
  st.dictionaryNames.contains word

/-- The name-collision test performed by the `:`, `variable`, `input` and
`output` rules, with the source's short-circuit order (`is_integer`, which
can raise `std::out_of_range`, runs last). -/
def nameIsTaken (st : CompilerState) (name : String) : Except StoulErr Bool :=
  if st.is_input name || st.is_output name || st.is_variable name ||
     st.is_defined name || is_reserved name then
    Except.ok true
  else
    match is_integer name with
    | Except.ok r => Except.ok r.isSome
    | Except.error e => Except.error e

/-- Compile-time failures (`std::invalid_argument` raised by `parse`, plus
the `std::out_of_range` that `is_integer` lets escape).  Message strings are
not modelled. -/
inductive CompileErr where
  | unclosedParen
  | missingDefnName
  | nameCollision
  | missingSemicolon
  | recurseOutsideDefn
  | missingDeclName
  | unknownDtype
  | missingThen
  | missingLoop
  | missingBeginEnd
  | missingRepeat
  | missingVariableAction
  | missingInputAction
  | missingStackOrOutput
  | missingOutputAction
  | misplacedI
  | misplacedJ
  | misplacedK
  | unrecognizedWord
  | integerOverflow
  | outOfFuel
  deriving DecidableEq, Repr

/-! ## Token scanners used by `parse`

Each mirrors one of the nesting-aware forward scans in the source; `none`
is the corresponding "missing terminator" compile error.  The fuel
argument makes the loops structurally recursive; every caller passes at
least `stop + 1`, which the bound `substop < stop` makes sufficient. -/

/-- The `'(' … ')'` scan: returns the index of the matching `)`. -/
def scanParen (toks : List String) (stop : Nat) :
    Nat → Nat → Nat → Option Nat
  | _, _, 0 => none
  | substop, nesting, fuel + 1 =>
    let substop := substop + 1
    if substop ≥ stop then none
    else
      let w := toks.getD substop ""
      let nesting := if w = "(" then nesting + 1
                     else if w = ")" then nesting - 1 else nesting
      if nesting = 0 then some substop
      else scanParen toks stop substop nesting fuel

/-- The `'\' … '\n'` scan: returns the index of the newline token (or
`stop`). -/
def scanLineComment (toks : List String) (stop : Nat) : Nat → Nat → Nat
  | substop, 0 => substop
  | substop, fuel + 1 =>
    if substop < stop && toks.getD substop "" ≠ "\n" then
      scanLineComment toks stop (substop + 1) fuel
    else substop

/-- The `':' … ';'` scan: returns the index of the matching `;`. -/
def scanSemicolon (toks : List String) (stop : Nat) :
    Nat → Nat → Nat → Option Nat
  | _, _, 0 => none
  | substop, nesting, fuel + 1 =>
    let substop := substop + 1
    if substop ≥ stop then none
    else
      let w := toks.getD substop ""
      let nesting := if w = ":" then nesting + 1
                     else if w = ";" then nesting - 1 else nesting
      if nesting = 0 then some substop
      else scanSemicolon toks stop substop nesting fuel

/-- The `if … [else …] then` scan: returns the index of the matching `then`
and the index of a top-level `else`, when present. -/
def scanThen (toks : List String) (stop : Nat) :
    Nat → Nat → Option Nat → Nat → Option (Nat × Option Nat)
  | _, _, _, 0 => none
  | substop, nesting, subelse, fuel + 1 =>
    let substop := substop + 1
    if substop ≥ stop then none
    else
      let w := toks.getD substop ""
      if w = "if" then scanThen toks stop substop (nesting + 1) subelse fuel
      else if w = "then" then
        if nesting = 1 then some (substop, subelse)
        else scanThen toks stop substop (nesting - 1) subelse fuel
      else if w = "else" && nesting = 1 then
        scanThen toks stop substop nesting (some substop) fuel
      else scanThen toks stop substop nesting subelse fuel

/-- The `do … loop/+loop` scan: returns the index of the matching
terminator and whether it was `+loop`. -/
def scanLoop (toks : List String) (stop : Nat) :
    Nat → Nat → Bool → Nat → Option (Nat × Bool)
  | _, _, _, 0 => none
  | substop, nesting, isStep, fuel + 1 =>
    let substop := substop + 1
    if substop ≥ stop then none
    else
      let w := toks.getD substop ""
      if w = "do" then scanLoop toks stop substop (nesting + 1) isStep fuel
      else if w = "loop" then
        if nesting = 1 then some (substop, isStep)
        else scanLoop toks stop substop (nesting - 1) isStep fuel
      else if w = "+loop" then
        let isStep := if nesting = 1 then true else isStep
        if nesting = 1 then some (substop, isStep)
        else scanLoop toks stop substop (nesting - 1) isStep fuel
      else scanLoop toks stop substop nesting isStep fuel

/-- The inner `while … repeat` scan: returns the index of the matching
`repeat`. -/
def scanRepeat (toks : List String) (stop : Nat) :
    Nat → Nat → Nat → Option Nat
  | _, _, 0 => none
  | substop, subnesting, fuel + 1 =>
    let substop := substop + 1
    if substop ≥ stop then none
    else
      let w := toks.getD substop ""
      if w = "while" then scanRepeat toks stop substop (subnesting + 1) fuel
      else if w = "repeat" then
        if subnesting = 1 then some substop
        else scanRepeat toks stop substop (subnesting - 1) fuel
      else scanRepeat toks stop substop subnesting fuel

/-- The `begin … until/again/while…repeat` scan: returns the index of the
final terminator, whether the construct ended with `again`, and the index
of a top-level `while`, when present. -/
def scanBeginEnd (toks : List String) (stop : Nat) :
    Nat → Nat → Bool → Option Nat → Nat → Option (Nat × Bool × Option Nat)
  | _, _, _, _, 0 => none
  | substop, nesting, isAgain, subwhile, fuel + 1 =>
    let substop := substop + 1
    if substop ≥ stop then none
    else
      let w := toks.getD substop ""
      if w = "begin" then scanBeginEnd toks stop substop (nesting + 1) isAgain subwhile fuel
      else if w = "until" then
        if nesting = 1 then some (substop, isAgain, subwhile)
        else scanBeginEnd toks stop substop (nesting - 1) isAgain subwhile fuel
      else if w = "again" then
        let isAgain := if nesting = 1 then true else isAgain
        if nesting = 1 then some (substop, isAgain, subwhile)
        else scanBeginEnd toks stop substop (nesting - 1) isAgain subwhile fuel
      else if w = "while" then
        let subwhile := if nesting = 1 then some substop else subwhile
        match scanRepeat toks stop substop 1 fuel with
        | none => none
        | some substop2 =>
          if nesting = 1 then some (substop2, isAgain, subwhile)
          else scanBeginEnd toks stop substop2 (nesting - 1) isAgain subwhile fuel
      else scanBeginEnd toks stop substop nesting isAgain subwhile fuel

/-! ## The recursive-descent compiler (`ForthMachineOf::parse`) -/

/-- Decode a typed-I/O parser word (the body of the `is_input` rule that
assembles `bytecode` from `#`, `!` and the type letter).  Returns the
assembled flag word when the token has the shape `[#][!]<type>->`. -/
def decodeParserWord (parser : String) : Option Nat :=
  let b0 : Nat := 0
  let (b1, p1) :=
    if parser.length ≠ 0 && parser.front = '#' then
      (b0 ||| READ_REPEATED, parser.drop 1)
    else (b0, parser)
  let (b2, p2) :=
    if p1.length ≠ 0 && p1.front = '!' then
      (b1 ||| READ_BIGENDIAN, p1.drop 1)
    else (b1, p1)
  if p2.length = 0 then none
  else
    let sel : Option Nat :=
      match p2.front with
      | '?' => some READ_BOOL
      | 'b' => some READ_INT8
      | 'h' => some READ_INT16
      | 'i' => some READ_INT32
      | 'q' => some READ_INT64
      | 'n' => some READ_INTP
      | 'B' => some READ_UINT8
      | 'H' => some READ_UINT16
      | 'I' => some READ_UINT32
      | 'Q' => some READ_UINT64
      | 'N' => some READ_UINTP
      | 'f' => some READ_FLOAT32
      | 'd' => some READ_FLOAT64
      | _ => none
    match sel with
    | none => none
    | some s => if p2.drop 1 = "->" then some (b2 ||| s) else none

/-- Index of the first occurrence of `word` in `names` (the linear searches
the source performs for variable, input and output indices). -/
def nameIndex (names : List String) (word : String) : Nat :=
  (names.indexOf word)

/-- `ForthMachineOf::parse`: one call handles the token at `pos` and tail-
recurses over the rest of `[start, stop)`, exactly following the source's
dispatch order.  `bytecodes` is the segment being emitted; sub-segment
bodies recurse with a fresh accumulator, a placeholder pushed into
`st.dictionary` first (so that recursion works), and the result stored
back at the reserved index. -/
def parse (defnName : String) (toks : List String) (pos stop : Nat)
    (bytecodes : List Int) (st : CompilerState)
    (exitdepth dodepth : Nat) :
    Nat → Except CompileErr (List Int × CompilerState)
  | 0 => Except.error CompileErr.outOfFuel
  | fuel + 1 =>
    if pos ≥ stop then Except.ok (bytecodes, st)
    else
      let word := toks.getD pos ""
      if word = "(" then
        match scanParen toks stop pos 1 (stop + 1) with
        | none => Except.error CompileErr.unclosedParen
        | some substop =>
          parse defnName toks (substop + 1) stop bytecodes st exitdepth dodepth fuel
      else if word = "\\" then
        let substop := scanLineComment toks stop pos (stop + 1)
        parse defnName toks (substop + 1) stop bytecodes st exitdepth dodepth fuel
      else if word = "\n" then
        parse defnName toks (pos + 1) stop bytecodes st exitdepth dodepth fuel
      else if word = "" then
        parse defnName toks (pos + 1) stop bytecodes st exitdepth dodepth fuel
      else if word = ":" then
        if pos + 1 ≥ stop || toks.getD (pos + 1) "" = ";" then
          Except.error CompileErr.missingDefnName
        else
          let name := toks.getD (pos + 1) ""
          match nameIsTaken st name with
          | Except.error _ => Except.error CompileErr.integerOverflow
          | Except.ok true => Except.error CompileErr.nameCollision
          | Except.ok false =>
            match scanSemicolon toks stop (pos + 1) 1 (stop + 1) with
            | none => Except.error CompileErr.missingSemicolon
            | some substop =>
              let substart := pos + 2
              let bytecode : Int := (st.dictionary.length : Int) + BOUND_DICTIONARY
              let st1 := { st with
                dictionaryNames := st.dictionaryNames ++ [name]
                dictionaryBytecodes := st.dictionaryBytecodes ++ [bytecode]
                dictionary := st.dictionary ++ [[]] }
              match parse name toks substart substop [] st1 0 0 fuel with
              | Except.error e => Except.error e
              | Except.ok (body, st2) =>
                let st3 := { st2 with
                  dictionary := st2.dictionary.set st.dictionary.length body }
                parse defnName toks (substop + 1) stop bytecodes st3 exitdepth dodepth fuel
      else if word = "recurse" then
        if defnName = "" then Except.error CompileErr.recurseOutsideDefn
        else
          let found := ((st.dictionaryNames.zip st.dictionaryBytecodes).filter
            (fun p => p.1 = defnName)).map Prod.snd
          parse defnName toks (pos + 1) stop (bytecodes ++ found) st exitdepth dodepth fuel
      else if word = "variable" then
        if pos + 1 ≥ stop then Except.error CompileErr.missingDeclName
        else
          let name := toks.getD (pos + 1) ""
          match nameIsTaken st name with
          | Except.error _ => Except.error CompileErr.integerOverflow
          | Except.ok true => Except.error CompileErr.nameCollision
          | Except.ok false =>
            parse defnName toks (pos + 2) stop bytecodes
              { st with variableNames := st.variableNames ++ [name] } exitdepth dodepth fuel
      else if word = "input" then
        if pos + 1 ≥ stop then Except.error CompileErr.missingDeclName
        else
          let name := toks.getD (pos + 1) ""
          match nameIsTaken st name with
          | Except.error _ => Except.error CompileErr.integerOverflow
          | Except.ok true => Except.error CompileErr.nameCollision
          | Except.ok false =>
            parse defnName toks (pos + 2) stop bytecodes
              { st with inputNames := st.inputNames ++ [name] } exitdepth dodepth fuel
      else if word = "output" then
        if pos + 2 ≥ stop then Except.error CompileErr.missingDeclName
        else
          let name := toks.getD (pos + 1) ""
          let dtypeString := toks.getD (pos + 2) ""
          match nameIsTaken st name with
          | Except.error _ => Except.error CompileErr.integerOverflow
          | Except.ok true => Except.error CompileErr.nameCollision
          | Except.ok false =>
            match (outputDtypeWords.filter (fun p => p.1 = dtypeString)).head? with
            | none => Except.error CompileErr.unknownDtype
            | some pair =>
              parse defnName toks (pos + 3) stop bytecodes
                { st with
                  outputNames := st.outputNames ++ [name]
                  outputDtypes := st.outputDtypes ++ [pair.2] } exitdepth dodepth fuel
      else if word = "halt" then
        parse defnName toks (pos + 1) stop (bytecodes ++ [CODE_HALT]) st exitdepth dodepth fuel
      else if word = "pause" then
        parse defnName toks (pos + 1) stop (bytecodes ++ [CODE_PAUSE]) st exitdepth dodepth fuel
      else if word = "if" then
        match scanThen toks stop pos 1 none (stop + 1) with
        | none => Except.error CompileErr.missingThen
        | some (substop, subelse) =>
          let substart := pos + 1
          match subelse with
          | none =>
            let bytecode : Int := (st.dictionary.length : Int) + BOUND_DICTIONARY
            let st1 := { st with dictionary := st.dictionary ++ [[]] }
            match parse defnName toks substart substop [] st1 (exitdepth + 1) dodepth fuel with
            | Except.error e => Except.error e
            | Except.ok (consequent, st2) =>
              let st3 := { st2 with
                dictionary := st2.dictionary.set st.dictionary.length consequent }
              parse defnName toks (substop + 1) stop
                (bytecodes ++ [CODE_IF, bytecode]) st3 exitdepth dodepth fuel
          | some subelsePos =>
            let bytecode1 : Int := (st.dictionary.length : Int) + BOUND_DICTIONARY
            let st1 := { st with dictionary := st.dictionary ++ [[]] }
            match parse defnName toks substart subelsePos [] st1 (exitdepth + 1) dodepth fuel with
            | Except.error e => Except.error e
            | Except.ok (consequent, st2) =>
              let st3 := { st2 with
                dictionary := st2.dictionary.set st.dictionary.length consequent }
              let bytecode2 : Int := (st3.dictionary.length : Int) + BOUND_DICTIONARY
              let st4 := { st3 with dictionary := st3.dictionary ++ [[]] }
              match parse defnName toks (subelsePos + 1) substop [] st4 (exitdepth + 1) dodepth fuel with
              | Except.error e => Except.error e
              | Except.ok (alternate, st5) =>
                let st6 := { st5 with
                  dictionary := st5.dictionary.set st3.dictionary.length alternate }
                parse defnName toks (substop + 1) stop
                  (bytecodes ++ [CODE_IF_ELSE, bytecode1, bytecode2]) st6 exitdepth dodepth fuel
      else if word = "do" then
        match scanLoop toks stop pos 1 false (stop + 1) with
        | none => Except.error CompileErr.missingLoop
        | some (substop, isStep) =>
          let substart := pos + 1
          let bytecode : Int := (st.dictionary.length : Int) + BOUND_DICTIONARY
          let st1 := { st with dictionary := st.dictionary ++ [[]] }
          match parse defnName toks substart substop [] st1 (exitdepth + 1) (dodepth + 1) fuel with
          | Except.error e => Except.error e
          | Except.ok (body, st2) =>
            let st3 := { st2 with
              dictionary := st2.dictionary.set st.dictionary.length body }
            parse defnName toks (substop + 1) stop
              (bytecodes ++ [if isStep then CODE_DO_STEP else CODE_DO, bytecode])
              st3 exitdepth dodepth fuel
      else if word = "begin" then
        match scanBeginEnd toks stop pos 1 false none (stop + 1) with
        | none => Except.error CompileErr.missingBeginEnd
        | some (substop, isAgain, subwhile) =>
          let substart := pos + 1
          if isAgain then
            let bytecode : Int := (st.dictionary.length : Int) + BOUND_DICTIONARY
            let st1 := { st with dictionary := st.dictionary ++ [[]] }
            match parse defnName toks substart substop [] st1 (exitdepth + 1) dodepth fuel with
            | Except.error e => Except.error e
            | Except.ok (body, st2) =>
              let st3 := { st2 with
                dictionary := st2.dictionary.set st.dictionary.length body }
              parse defnName toks (substop + 1) stop
                (bytecodes ++ [bytecode, CODE_AGAIN]) st3 exitdepth dodepth fuel
          else
            match subwhile with
            | none =>
              let bytecode : Int := (st.dictionary.length : Int) + BOUND_DICTIONARY
              let st1 := { st with dictionary := st.dictionary ++ [[]] }
              match parse defnName toks substart substop [] st1 (exitdepth + 1) dodepth fuel with
              | Except.error e => Except.error e
              | Except.ok (body, st2) =>
                let st3 := { st2 with
                  dictionary := st2.dictionary.set st.dictionary.length body }
                parse defnName toks (substop + 1) stop
                  (bytecodes ++ [bytecode, CODE_UNTIL]) st3 exitdepth dodepth fuel
            | some subwhilePos =>
              let bytecode1 : Int := (st.dictionary.length : Int) + BOUND_DICTIONARY
              let st1 := { st with dictionary := st.dictionary ++ [[]] }
              match parse defnName toks substart subwhilePos [] st1 (exitdepth + 1) dodepth fuel with
              | Except.error e => Except.error e
              | Except.ok (precondition, st2) =>
                let st3 := { st2 with
                  dictionary := st2.dictionary.set st.dictionary.length precondition }
                let bytecode2 : Int := (st3.dictionary.length : Int) + BOUND_DICTIONARY
                let st4 := { st3 with dictionary := st3.dictionary ++ [[]] }
                match parse defnName toks (subwhilePos + 1) substop [] st4 (exitdepth + 1) dodepth fuel with
                | Except.error e => Except.error e
                | Except.ok (postcondition, st5) =>
                  let st6 := { st5 with
                    dictionary := st5.dictionary.set st3.dictionary.length postcondition }
                  parse defnName toks (substop + 1) stop
                    (bytecodes ++ [bytecode1, CODE_WHILE, bytecode2]) st6 exitdepth dodepth fuel
      else if word = "exit" then
        parse defnName toks (pos + 1) stop
          (bytecodes ++ [CODE_EXIT, (exitdepth : Int)]) st exitdepth dodepth fuel
      else if st.is_variable word then
        let variableIndex : Int := (nameIndex st.variableNames word : Int)
        if pos + 1 < stop && toks.getD (pos + 1) "" = "!" then
          parse defnName toks (pos + 2) stop
            (bytecodes ++ [CODE_PUT, variableIndex]) st exitdepth dodepth fuel
        else if pos + 1 < stop && toks.getD (pos + 1) "" = "+!" then
          parse defnName toks (pos + 2) stop
            (bytecodes ++ [CODE_INC, variableIndex]) st exitdepth dodepth fuel
        else if pos + 1 < stop && toks.getD (pos + 1) "" = "@" then
          parse defnName toks (pos + 2) stop
            (bytecodes ++ [CODE_GET, variableIndex]) st exitdepth dodepth fuel
        else Except.error CompileErr.missingVariableAction
      else if st.is_input word then
        let inputIndex : Int := (nameIndex st.inputNames word : Int)
        if pos + 1 < stop && toks.getD (pos + 1) "" = "len" then
          parse defnName toks (pos + 2) stop
            (bytecodes ++ [CODE_LEN_INPUT, inputIndex]) st exitdepth dodepth fuel
        else if pos + 1 < stop && toks.getD (pos + 1) "" = "pos" then
          parse defnName toks (pos + 2) stop
            (bytecodes ++ [CODE_POS, inputIndex]) st exitdepth dodepth fuel
        else if pos + 1 < stop && toks.getD (pos + 1) "" = "end" then
          parse defnName toks (pos + 2) stop
            (bytecodes ++ [CODE_END, inputIndex]) st exitdepth dodepth fuel
        else if pos + 1 < stop && toks.getD (pos + 1) "" = "seek" then
          parse defnName toks (pos + 2) stop
            (bytecodes ++ [CODE_SEEK, inputIndex]) st exitdepth dodepth fuel
        else if pos + 1 < stop && toks.getD (pos + 1) "" = "skip" then
          parse defnName toks (pos + 2) stop
            (bytecodes ++ [CODE_SKIP, inputIndex]) st exitdepth dodepth fuel
        else if pos + 1 < stop then
          match decodeParserWord (toks.getD (pos + 1) "") with
          | none => Except.error CompileErr.missingInputAction
          | some flags =>
            if pos + 2 < stop && toks.getD (pos + 2) "" = "stack" then
              -- parser instructions are bit-flipped to detect them by the sign bit
              parse defnName toks (pos + 3) stop
                (bytecodes ++ [-(flags : Int) - 1, inputIndex]) st exitdepth dodepth fuel
            else if pos + 2 < stop && st.is_output (toks.getD (pos + 2) "") then
              let outputIndex : Int := (nameIndex st.outputNames (toks.getD (pos + 2) "") : Int)
              let flags := flags ||| READ_DIRECT
              parse defnName toks (pos + 3) stop
                (bytecodes ++ [-(flags : Int) - 1, inputIndex, outputIndex]) st exitdepth dodepth fuel
            else Except.error CompileErr.missingStackOrOutput
        else Except.error CompileErr.missingInputAction
      else if st.is_output word then
        let outputIndex : Int := (nameIndex st.outputNames word : Int)
        if pos + 1 < stop && toks.getD (pos + 1) "" = "<-" then
          if pos + 2 < stop && toks.getD (pos + 2) "" = "stack" then
            parse defnName toks (pos + 3) stop
              (bytecodes ++ [CODE_WRITE, outputIndex]) st exitdepth dodepth fuel
          else Except.error CompileErr.missingOutputAction
        else if pos + 1 < stop && toks.getD (pos + 1) "" = "len" then
          parse defnName toks (pos + 2) stop
            (bytecodes ++ [CODE_LEN_OUTPUT, outputIndex]) st exitdepth dodepth fuel
        else if pos + 1 < stop && toks.getD (pos + 1) "" = "rewind" then
          parse defnName toks (pos + 2) stop
            (bytecodes ++ [CODE_REWIND, outputIndex]) st exitdepth dodepth fuel
        else Except.error CompileErr.missingOutputAction
      else
        match (genericBuiltinWords.filter (fun p => p.1 = word)).head? with
        | some pair =>
          if word = "i" && dodepth < 1 then Except.error CompileErr.misplacedI
          else if word = "j" && dodepth < 2 then Except.error CompileErr.misplacedJ
          else if word = "k" && dodepth < 3 then Except.error CompileErr.misplacedK
          else
            parse defnName toks (pos + 1) stop (bytecodes ++ [pair.2]) st exitdepth dodepth fuel
        | none =>
          match ((st.dictionaryNames.zip st.dictionaryBytecodes).filter
            (fun p => p.1 = word)).head? with
          | some pair =>
            parse defnName toks (pos + 1) stop (bytecodes ++ [pair.2]) st exitdepth dodepth fuel
          | none =>
            match is_integer word with
            | Except.error _ => Except.error CompileErr.integerOverflow
            | Except.ok none => Except.error CompileErr.unrecognizedWord
            | Except.ok (some num) =>
              parse defnName toks (pos + 1) stop
                (bytecodes ++ [CODE_LITERAL, toInt32 num]) st exitdepth dodepth fuel

/-! ## `ForthMachineOf::compile` and the machine -/

/-- The compiled machine: the flattened bytecode store, its offsets and the
symbol tables, together with the construction-time capacities. -/
structure Machine where
  bytecodes : List Int
  offsets : List Nat
  variableNames : List String
  inputNames : List String
  outputNames : List String
  outputDtypes : List Dtype
  dictionaryNames : List String
  dictionaryBytecodes : List Int
  stackMaxDepth : Nat
  recursionMaxDepth : Nat
  deriving Repr, DecidableEq

/-- Running lengths of the flattening loop at the end of `compile`, one
entry per segment. -/
def flattenOffsetsFrom (base : Nat) : List (List Int) → List Nat
  | [] => []
  | seg :: rest => (base + seg.length) :: flattenOffsetsFrom (base + seg.length) rest

/-- The flattening loop at the end of `compile`: cumulative offsets
starting at 0, one per segment, closing with the total length. -/
def flattenOffsets (segments : List (List Int)) : List Nat :=
  0 :: flattenOffsetsFrom 0 segments

/-- `ForthMachineOf::compile`: seed the dictionary with the (empty)
top-level segment, parse the whole token vector, store the top-level
bytecodes back into slot 0, then flatten. -/
def compile (tokenized : List String) (stackMax recursionMax : Nat) (fuel : Nat) :
    Except CompileErr Machine :=
  let st0 := { emptyCompilerState with dictionary := [[]] }
  match parse "" tokenized 0 tokenized.length [] st0 0 0 fuel with
  | Except.error e => Except.error e
  | Except.ok (bytecodes, st) =>
    let dict := st.dictionary.set 0 bytecodes
    Except.ok
      { bytecodes := dict.flatten
        offsets := flattenOffsets dict
        variableNames := st.variableNames
        inputNames := st.inputNames
        outputNames := st.outputNames
        outputDtypes := st.outputDtypes
        dictionaryNames := st.dictionaryNames
        dictionaryBytecodes := st.dictionaryBytecodes
        stackMaxDepth := stackMax
        recursionMaxDepth := recursionMax }

/-- Construction (`ForthMachineOf::ForthMachineOf`): tokenize then compile.
The default capacities of the constructor are 1024 cells and 1024 frames. -/
def compileSource (source : String) (stackMax : Nat := 1024)
    (recursionMax : Nat := 1024) (fuel : Nat := 1000000) :
    Except CompileErr Machine :=
  compile (tokenize source) stackMax recursionMax fuel

/-! ## Runtime state

The execution-engine state (`reset`/`begin` establish it).  The recursion
stack (`current_which_`/`current_where_` with `recursion_current_depth_`)
is a list of `(which, where)` pairs with the top first; the do-loop stack
(`do_recursion_depth_`/`do_stop_`/`do_i_` with `do_current_depth_`)
likewise.  The do-frame layout `{abs_recursion_depth, stop, i,
is_step_flag}` and the small pointer/stack helper members live in the
class header, not in the provided sources; they are modelled from the
spec (§3 "Runtime state", §4.5). -/

/-- An input stream: immutable bytes plus a read cursor (the
`ForthInputBuffer` contract of §6 of the spec; the class itself is not in
the provided sources).  Modelled from the spec: `read`, `seek`, `skip`,
`pos`, `len`, `end` with the `*_beyond` failures of §7/§8. -/
structure ForthInput where
  data : List Nat
  pos : Nat
  deriving Repr, DecidableEq

instance : Inhabited ForthInput := ⟨⟨[], 0⟩⟩

/-- A typed growable output buffer (the `ForthOutputBuffer` contract of
§6; the class is not in the provided sources).  Modelled from the spec:
only the declared element type and the logical sequence of appended
values are tracked; `data` holds the appended cell values after the
byteswap, element-type storage conversion being outside the modelled
sources. -/
structure OutputBuffer where
  dtype : Dtype
  data : List Int
  deriving Repr, DecidableEq

instance : Inhabited OutputBuffer := ⟨⟨Dtype.boolean, []⟩⟩

/-- A do-loop frame.  Modelled from the spec (§3): `abs_recursion_depth`,
`stop`, current index `i`, and the `+loop` flag. -/
structure DoFrame where
  absDepth : Nat
  stop : Int
  i : Int
  isStep : Bool
  deriving Repr, DecidableEq

instance : Inhabited DoFrame := ⟨⟨0, 0, 0, false⟩⟩

structure RunState where
  stack : List Int
  variableCells : List Int
  currentInputs : List ForthInput
  currentOutputs : List OutputBuffer
  isReady : Bool
  frames : List (Nat × Nat)
  doStack : List DoFrame
  targetDepth : List Nat
  currentError : ForthError
  countInstructions : Nat
  countReads : Nat
  countWrites : Nat
  deriving Repr, DecidableEq

/-- `bytecodes_pointer_which()`: the segment id of the top frame. -/
def RunState.topWhich (s : RunState) : Nat := (s.frames.headD (0, 0)).1

/-- `bytecodes_pointer_where()`: the in-segment index of the top frame. -/
def RunState.topWhere (s : RunState) : Nat := (s.frames.headD (0, 0)).2

/-- `bytecodes_pointer_where()++` (and `+= n`). -/
def advanceWhere (s : RunState) (n : Nat := 1) : RunState :=
  { s with frames :=
      match s.frames with
      | [] => []
      | (w, h) :: rest => (w, h + n) :: rest }

/-- `bytecodes_pointer_where() -= n` (used by `AGAIN`, `UNTIL`, `WHILE`). -/
def rewindWhere (s : RunState) (n : Nat) : RunState :=
  { s with frames :=
      match s.frames with
      | [] => []
      | (w, h) :: rest => (w, h - n) :: rest }

/-- `bytecodes_pointer_push(which)`. -/
def pushFrame (s : RunState) (which : Nat) : RunState :=
  { s with frames := (which, 0) :: s.frames }

/-- `bytecodes_pointer_pop()`. -/
def popFrame (s : RunState) : RunState :=
  { s with frames := s.frames.tail }

/-- The length of segment `which`: `offsets[which + 1] - offsets[which]`. -/
def Machine.seglen (m : Machine) (which : Nat) : Nat :=
  m.offsets.getD (which + 1) 0 - m.offsets.getD which 0

/-- `bytecode_get()`: `bytecodes[offsets[which] + where]`. -/
def Machine.bytecodeAt (m : Machine) (which whereAt : Nat) : Int :=
  m.bytecodes.getD (m.offsets.getD which 0 + whereAt) 0

/-- `is_segment_done()`: the top frame ran past the end of its segment. -/
def isSegmentDone (m : Machine) (s : RunState) : Bool :=
  decide (s.topWhere ≥ m.seglen s.topWhich)

/-- `do_abs_recursion_depth()`. -/
def doAbsDepth (s : RunState) : Nat := (s.doStack.headD default).absDepth

/-- `do_i()` (the top frame's index). -/
def doITop (s : RunState) : Int := (s.doStack.headD default).i

/-- `do_stop()`. -/
def doStopTop (s : RunState) : Int := (s.doStack.headD default).stop

/-- `do_loop_is_step()`. -/
def doIsStepTop (s : RunState) : Bool := (s.doStack.headD default).isStep

/-- `do_j()` and `do_k()`: the next-outer frames. -/
def doJVal (s : RunState) : Int := (s.doStack.getD 1 default).i

def doKVal (s : RunState) : Int := (s.doStack.getD 2 default).i

/-- Mutate the top do-frame's `i` (`do_i()++` / `do_i() += step`). -/
def bumpDoI (s : RunState) (delta : Int) : RunState :=
  { s with doStack :=
      match s.doStack with
      | [] => []
      | f :: rest => { f with i := f.i + delta } :: rest }

/-- `do_loop_push(start, stop)` / `do_steploop_push(start, stop)`. -/
def doLoopPush (s : RunState) (start stop : Int) (isStep : Bool) : RunState :=
  { s with doStack :=
      ⟨s.frames.length, stop, start, isStep⟩ :: s.doStack }

/-- Drop the top do-frame (`do_current_depth_--`). -/
def popDo (s : RunState) : RunState :=
  { s with doStack := s.doStack.tail }

/-- The do-frame pruning loop of `CODE_EXIT`: pop frames until the top one
belongs to the new recursion depth (or the stack empties). -/
def pruneDoStack (newDepth : Nat) : List DoFrame → List DoFrame
  | [] => []
  | f :: rest =>
    if f.absDepth ≠ newDepth then pruneDoStack newDepth rest else f :: rest

/-- The `while (recursion_target_depth_.size() > 1) pop()` loop of
`CODE_HALT`: keep only the bottom (sentinel) entry. -/
def keepBottom : List Nat → List Nat
  | [] => []
  | [x] => [x]
  | _ :: rest => keepBottom rest

/-- Latch an error. -/
def setError (s : RunState) (e : ForthError) : RunState :=
  { s with currentError := e }

/-! ## Typed-I/O decoding

The value semantics of the `WRITE_TO_STACK*` / `WRITE_DIRECTLY` macros.
The host is modelled as little-endian with 8-byte `ssize_t`/`size_t`
(`NATIVELY_BIG_ENDIAN` false), so `byteswap` is exactly the
`READ_BIGENDIAN` flag. -/

/-- `sizeof(TYPE)` for each `READ_*` type selector. -/
def readTypeSize (mask : Nat) : Nat :=
  if mask = READ_BOOL then 1
  else if mask = READ_INT8 then 1
  else if mask = READ_INT16 then 2
  else if mask = READ_INT32 then 4
  else if mask = READ_INT64 then 8
  else if mask = READ_INTP then 8
  else if mask = READ_UINT8 then 1
  else if mask = READ_UINT16 then 2
  else if mask = READ_UINT32 then 4
  else if mask = READ_UINT64 then 8
  else if mask = READ_UINTP then 8
  else if mask = READ_FLOAT32 then 4
  else if mask = READ_FLOAT64 then 8
  else 1

/-- Assemble bytes little-endian into an unsigned value. -/
def assembleLE : List Nat → Nat
  | [] => 0
  | b :: rest => b % 256 + 256 * assembleLE rest

/-- Truncation toward zero of an IEEE-754 value given as raw bits
(`(I)value` applied to a `float`/`double`; NaN and infinities are an
undefined conversion in C++ and are mapped to 0 here). -/
def ieeeTrunc (expBits mantBits bits : Nat) : Int :=
  let sign := bits / 2 ^ (expBits + mantBits) % 2
  let e := bits / 2 ^ mantBits % 2 ^ expBits
  let m := bits % 2 ^ mantBits
  if e = 2 ^ expBits - 1 then 0
  else
    let bias := 2 ^ (expBits - 1) - 1
    let mant := if e = 0 then m else 2 ^ mantBits + m
    let ePow : Int := ((max e 1 : Nat) : Int) - bias - mantBits
    let mag : Nat :=
      if 0 ≤ ePow then mant * 2 ^ ePow.toNat else mant / 2 ^ (-ePow).toNat
    if sign = 1 then -(mag : Int) else (mag : Int)

/-- Two's-complement interpretation of `w`-byte unsigned `u`. -/
def signedOf (w u : Nat) : Int :=
  if u < 2 ^ (8 * w - 1) then (u : Int) else (u : Int) - 2 ^ (8 * w)

/-- The value one item of type `mask` contributes to the data stack:
read native (little-endian), byteswapped when requested, then converted
exactly as the corresponding macro does (`stack_push(value)` for the
one-byte types, `stack_push((I)value)` — a cast through the `int32_t`
instruction type — for the multi-byte ones). -/
def decodeCell (mask : Nat) (byteswap : Bool) (bytes : List Nat) : Int :=
  let bs := if byteswap then bytes.reverse else bytes
  let u := assembleLE bs
  if mask = READ_BOOL then (if u % 256 ≠ 0 then 1 else 0)
  else if mask = READ_INT8 then signedOf 1 u
  else if mask = READ_UINT8 then (u : Int)
  else if mask = READ_INT16 then toInt32 (signedOf 2 u)
  else if mask = READ_INT32 then toInt32 (signedOf 4 u)
  else if mask = READ_INT64 then toInt32 (signedOf 8 u)
  else if mask = READ_INTP then toInt32 (signedOf 8 u)
  else if mask = READ_UINT16 then toInt32 (u : Int)
  else if mask = READ_UINT32 then toInt32 (u : Int)
  else if mask = READ_UINT64 then toInt32 (u : Int)
  else if mask = READ_UINTP then toInt32 (u : Int)
  else if mask = READ_FLOAT32 then toInt32 (ieeeTrunc 8 23 u)
  else if mask = READ_FLOAT64 then toInt32 (ieeeTrunc 11 52 u)
  else 0

/-- The value one item contributes to an output buffer on a `READ_DIRECT`
instruction (the output performs its own byteswap; no `(I)` narrowing). -/
def decodeDirect (mask : Nat) (byteswap : Bool) (bytes : List Nat) : Int :=
  let bs := if byteswap then bytes.reverse else bytes
  let u := assembleLE bs
  if mask = READ_BOOL then (if u % 256 ≠ 0 then 1 else 0)
  else if mask = READ_INT8 then signedOf 1 u
  else if mask = READ_INT16 then signedOf 2 u
  else if mask = READ_INT32 then signedOf 4 u
  else if mask = READ_INT64 then signedOf 8 u
  else if mask = READ_INTP then signedOf 8 u
  else if mask = READ_FLOAT32 then ieeeTrunc 8 23 u
  else if mask = READ_FLOAT64 then ieeeTrunc 11 52 u
  else (u : Int)

/-- `ForthInputBuffer::read(n, err)`: modelled from the spec — fail with
`read_beyond` past the end, otherwise yield the bytes and advance the
cursor. -/
def ForthInput.read (inp : ForthInput) (n : Int) :
    Except ForthError (List Nat × ForthInput) :=
  if (inp.pos : Int) + n > (inp.data.length : Int) then
    Except.error ForthError.read_beyond
  else
    Except.ok ((inp.data.drop inp.pos).take n.toNat,
               { inp with pos := ((inp.pos : Int) + n).toNat })

/-- Split a flat byte list into `numItems` chunks of `w` bytes. -/
def chunkBytes (w : Nat) : Nat → List Nat → List (List Nat)
  | 0, _ => []
  | n + 1, bytes => bytes.take w :: chunkBytes w n (bytes.drop w)

/-- `ForthInputBuffer::seek` (modelled from the spec: `seek(0)` and
`seek(len)` succeed; `seek(-1)` and `seek(len+1)` fail). -/
def ForthInput.seekTo (inp : ForthInput) (dest : Int) : Except ForthError ForthInput :=
  if dest < 0 || dest > (inp.data.length : Int) then Except.error ForthError.seek_beyond
  else Except.ok { inp with pos := dest.toNat }

/-- `ForthInputBuffer::skip` (modelled from the spec). -/
def ForthInput.skipBy (inp : ForthInput) (n : Int) : Except ForthError ForthInput :=
  let newPos : Int := (inp.pos : Int) + n
  if newPos < 0 || newPos > (inp.data.length : Int) then Except.error ForthError.skip_beyond
  else Except.ok { inp with pos := newPos.toNat }

/-- `ForthOutputBuffer::rewind` (modelled from the spec: failing with
`rewind_beyond` when it would move past the beginning). -/
def OutputBuffer.rewindBy (out : OutputBuffer) (n : Int) :
    Except ForthError OutputBuffer :=
  if n < 0 || n > (out.data.length : Int) then Except.error ForthError.rewind_beyond
  else Except.ok { out with data := out.data.take (out.data.length - n.toNat) }

/-- Replace element `i` of a list by `f` of it (no-op out of range);
models in-place updates `xs[i] = …`. -/
def modifyIdx (l : List α) (i : Nat) (f : α → α) : List α :=
  match l.get? i with
  | none => l
  | some x => l.set i (f x)

/-- The push loop of `WRITE_TO_STACK*`: each push re-checks
`stack_cannot_push()` and fails with `stack_overflow`. -/
def pushItems (maxDepth : Nat) : List Int → RunState → RunState
  | [], s => s
  | v :: rest, s =>
    if s.stack.length ≥ maxDepth then setError s ForthError.stack_overflow
    else pushItems maxDepth rest { s with stack := v :: s.stack }

/-- How one dispatched instruction hands control back to `internal_run`:
`ret` is a `return` statement, `normal` falls through to the
counter/single-step epilogue, `afterEnd` is the `goto after_end_of_segment`
of `CODE_EXIT`. -/
inductive StepResult where
  | ret (s : RunState)
  | normal (s : RunState)
  | afterEnd (s : RunState)

/-- One dispatched instruction of `internal_run` (the body of the big
`switch`, plus the typed-I/O and segment-call branches).  `s` has already
had `where` advanced by the pre-dispatch logic of the loop; operand slots
are read at the current `where` and skipped explicitly, exactly as the
source does. -/
def execInstr (m : Machine) (singleStep : Bool) (bytecode : Int) (s : RunState) :
    StepResult :=
  if bytecode < 0 then
    -- typed I/O; on a little-endian host byteswap is the READ_BIGENDIAN flag
    let flags : Nat := (-bytecode - 1).toNat
    let byteswap : Bool := decide (flags &&& READ_BIGENDIAN ≠ 0)
    let inNum := m.bytecodeAt s.topWhich s.topWhere
    let s := advanceWhere s
    let popped :
        Except RunState (Int × RunState) :=
      if flags &&& READ_REPEATED ≠ 0 then
        match s.stack with
        | [] => Except.error (setError s ForthError.stack_underflow)
        | v :: rest => Except.ok (v, { s with stack := rest })
      else Except.ok (1, s)
    match popped with
    | Except.error s => StepResult.ret s
    | Except.ok (numItems, s) =>
      let mask := flags &&& READ_MASK
      let w := readTypeSize mask
      if flags &&& READ_DIRECT ≠ 0 then
        let outNum := m.bytecodeAt s.topWhich s.topWhere
        let s := advanceWhere s
        match (s.currentInputs.getD inNum.toNat default).read (numItems * (w : Int)) with
        | Except.error e => StepResult.ret (setError s e)
        | Except.ok (bytes, inp) =>
          let s := { s with currentInputs := s.currentInputs.set inNum.toNat inp }
          let vals := (chunkBytes w numItems.toNat bytes).map (decodeDirect mask byteswap)
          let s := { s with
            currentOutputs := modifyIdx s.currentOutputs outNum.toNat
              (fun o => { o with data := o.data ++ vals })
            countWrites := s.countWrites + 1
            countReads := s.countReads + 1 }
          StepResult.normal s
      else
        match (s.currentInputs.getD inNum.toNat default).read (numItems * (w : Int)) with
        | Except.error e => StepResult.ret (setError s e)
        | Except.ok (bytes, inp) =>
          let s := { s with currentInputs := s.currentInputs.set inNum.toNat inp }
          let vals := (chunkBytes w numItems.toNat bytes).map (decodeCell mask byteswap)
          let s := pushItems m.stackMaxDepth vals s
          if s.currentError ≠ ForthError.none then StepResult.ret s
          else StepResult.normal { s with countReads := s.countReads + 1 }
  else if bytecode ≥ BOUND_DICTIONARY then
    if s.frames.length = m.recursionMaxDepth then
      StepResult.ret (setError s ForthError.recursion_depth_exceeded)
    else
      StepResult.normal (pushFrame s (bytecode - BOUND_DICTIONARY).toNat)
  else if bytecode = CODE_LITERAL then
    let num := m.bytecodeAt s.topWhich s.topWhere
    let s := advanceWhere s
    if s.stack.length ≥ m.stackMaxDepth then
      StepResult.ret (setError s ForthError.stack_overflow)
    else StepResult.normal { s with stack := num :: s.stack }
  else if bytecode = CODE_HALT then
    StepResult.ret
      { s with
        isReady := false
        frames := []
        targetDepth := keepBottom s.targetDepth
        doStack := []
        currentError := ForthError.user_halt
        countInstructions := s.countInstructions + 1 }
  else if bytecode = CODE_PAUSE then
    let s :=
      if isSegmentDone m s then
        let s := popFrame s
        if s.doStack.length ≠ 0 ∧ doAbsDepth s = s.frames.length then
          if doIsStepTop s then
            match s.stack with
            | [] => setError s ForthError.stack_underflow
            | v :: rest => bumpDoI { s with stack := rest } v
          else bumpDoI s 1
        else s
      else s
    if s.currentError ≠ ForthError.none then StepResult.ret s
    else StepResult.ret { s with countInstructions := s.countInstructions + 1 }
  else if bytecode = CODE_IF then
    match s.stack with
    | [] => StepResult.ret (setError s ForthError.stack_underflow)
    | v :: rest =>
      let s := { s with stack := rest }
      if v = 0 then StepResult.normal (advanceWhere s)
      else StepResult.normal s
  else if bytecode = CODE_IF_ELSE then
    match s.stack with
    | [] => StepResult.ret (setError s ForthError.stack_underflow)
    | v :: rest =>
      let s := { s with stack := rest }
      if v = 0 then StepResult.normal (advanceWhere s)
      else
        let consequent := m.bytecodeAt s.topWhich s.topWhere
        let s := advanceWhere s 2
        if s.frames.length = m.recursionMaxDepth then
          StepResult.ret (setError s ForthError.recursion_depth_exceeded)
        else
          StepResult.normal
            { pushFrame s (consequent - BOUND_DICTIONARY).toNat with
              countInstructions := s.countInstructions + 1 }
  else if bytecode = CODE_DO then
    match s.stack with
    | start :: stop :: rest =>
      let s := { s with stack := rest }
      if s.doStack.length = m.recursionMaxDepth then
        StepResult.ret (setError s ForthError.recursion_depth_exceeded)
      else StepResult.normal (doLoopPush s start stop false)
    | _ => StepResult.ret (setError s ForthError.stack_underflow)
  else if bytecode = CODE_DO_STEP then
    match s.stack with
    | start :: stop :: rest =>
      let s := { s with stack := rest }
      if s.doStack.length = m.recursionMaxDepth then
        StepResult.ret (setError s ForthError.recursion_depth_exceeded)
      else StepResult.normal (doLoopPush s start stop true)
    | _ => StepResult.ret (setError s ForthError.stack_underflow)
  else if bytecode = CODE_AGAIN then
    StepResult.normal (rewindWhere s 2)
  else if bytecode = CODE_UNTIL then
    match s.stack with
    | [] => StepResult.ret (setError s ForthError.stack_underflow)
    | v :: rest =>
      let s := { s with stack := rest }
      if v = 0 then StepResult.normal (rewindWhere s 2)
      else StepResult.normal s
  else if bytecode = CODE_WHILE then
    match s.stack with
    | [] => StepResult.ret (setError s ForthError.stack_underflow)
    | v :: rest =>
      let s := { s with stack := rest }
      if v = 0 then StepResult.normal (advanceWhere s)
      else
        let posttest := m.bytecodeAt s.topWhich s.topWhere
        let s := rewindWhere s 2
        if s.frames.length = m.recursionMaxDepth then
          StepResult.ret (setError s ForthError.recursion_depth_exceeded)
        else
          StepResult.normal
            { pushFrame s (posttest - BOUND_DICTIONARY).toNat with
              countInstructions := s.countInstructions + 1 }
  else if bytecode = CODE_EXIT then
    let exitdepth := m.bytecodeAt s.topWhich s.topWhere
    let s := advanceWhere s
    let s := { s with frames := s.frames.drop exitdepth.toNat }
    let s := { s with doStack := pruneDoStack s.frames.length s.doStack }
    let s := { s with countInstructions := s.countInstructions + 1 }
    if singleStep then
      StepResult.ret (if isSegmentDone m s then popFrame s else s)
    else StepResult.afterEnd s
  else if bytecode = CODE_PUT then
    let num := m.bytecodeAt s.topWhich s.topWhere
    let s := advanceWhere s
    match s.stack with
    | [] => StepResult.ret (setError s ForthError.stack_underflow)
    | v :: rest =>
      StepResult.normal
        { s with stack := rest, variableCells := s.variableCells.set num.toNat v }
  else if bytecode = CODE_INC then
    let num := m.bytecodeAt s.topWhich s.topWhere
    let s := advanceWhere s
    match s.stack with
    | [] => StepResult.ret (setError s ForthError.stack_underflow)
    | v :: rest =>
      StepResult.normal
        { s with stack := rest,
                 variableCells := modifyIdx s.variableCells num.toNat (· + v) }
  else if bytecode = CODE_GET then
    let num := m.bytecodeAt s.topWhich s.topWhere
    let s := advanceWhere s
    if s.stack.length ≥ m.stackMaxDepth then
      StepResult.ret (setError s ForthError.stack_overflow)
    else
      StepResult.normal
        { s with stack := s.variableCells.getD num.toNat 0 :: s.stack }
  else if bytecode = CODE_LEN_INPUT then
    let inNum := m.bytecodeAt s.topWhich s.topWhere
    let s := advanceWhere s
    if s.stack.length ≥ m.stackMaxDepth then
      StepResult.ret (setError s ForthError.stack_overflow)
    else
      StepResult.normal
        { s with stack :=
            toInt32 ((s.currentInputs.getD inNum.toNat default).data.length : Int) :: s.stack }
  else if bytecode = CODE_POS then
    let inNum := m.bytecodeAt s.topWhich s.topWhere
    let s := advanceWhere s
    if s.stack.length ≥ m.stackMaxDepth then
      StepResult.ret (setError s ForthError.stack_overflow)
    else
      StepResult.normal
        { s with stack :=
            toInt32 ((s.currentInputs.getD inNum.toNat default).pos : Int) :: s.stack }
  else if bytecode = CODE_END then
    let inNum := m.bytecodeAt s.topWhich s.topWhere
    let s := advanceWhere s
    if s.stack.length ≥ m.stackMaxDepth then
      StepResult.ret (setError s ForthError.stack_overflow)
    else
      let inp := s.currentInputs.getD inNum.toNat default
      StepResult.normal
        { s with stack := (if inp.pos = inp.data.length then -1 else 0) :: s.stack }
  else if bytecode = CODE_SEEK then
    let inNum := m.bytecodeAt s.topWhich s.topWhere
    let s := advanceWhere s
    match s.stack with
    | [] => StepResult.ret (setError s ForthError.stack_underflow)
    | v :: rest =>
      let s := { s with stack := rest }
      match (s.currentInputs.getD inNum.toNat default).seekTo v with
      | Except.error e => StepResult.ret (setError s e)
      | Except.ok inp =>
        StepResult.normal { s with currentInputs := s.currentInputs.set inNum.toNat inp }
  else if bytecode = CODE_SKIP then
    let inNum := m.bytecodeAt s.topWhich s.topWhere
    let s := advanceWhere s
    match s.stack with
    | [] => StepResult.ret (setError s ForthError.stack_underflow)
    | v :: rest =>
      let s := { s with stack := rest }
      match (s.currentInputs.getD inNum.toNat default).skipBy v with
      | Except.error e => StepResult.ret (setError s e)
      | Except.ok inp =>
        StepResult.normal { s with currentInputs := s.currentInputs.set inNum.toNat inp }
  else if bytecode = CODE_WRITE then
    let outNum := m.bytecodeAt s.topWhich s.topWhere
    let s := advanceWhere s
    match s.stack with
    | [] => StepResult.ret (setError s ForthError.stack_underflow)
    | v :: rest =>
      StepResult.normal
        { s with stack := rest
                 currentOutputs := modifyIdx s.currentOutputs outNum.toNat
                   (fun o => { o with data := o.data ++ [v] })
                 countWrites := s.countWrites + 1 }
  else if bytecode = CODE_LEN_OUTPUT then
    let outNum := m.bytecodeAt s.topWhich s.topWhere
    let s := advanceWhere s
    if s.stack.length ≥ m.stackMaxDepth then
      StepResult.ret (setError s ForthError.stack_overflow)
    else
      StepResult.normal
        { s with stack :=
            toInt32 ((s.currentOutputs.getD outNum.toNat default).data.length : Int) :: s.stack }
  else if bytecode = CODE_REWIND then
    let outNum := m.bytecodeAt s.topWhich s.topWhere
    let s := advanceWhere s
    match s.stack with
    | [] => StepResult.ret (setError s ForthError.stack_underflow)
    | v :: rest =>
      let s := { s with stack := rest }
      match (s.currentOutputs.getD outNum.toNat default).rewindBy v with
      | Except.error e => StepResult.ret (setError s e)
      | Except.ok out =>
        StepResult.normal { s with currentOutputs := s.currentOutputs.set outNum.toNat out }
  else if bytecode = CODE_I then
    if s.stack.length ≥ m.stackMaxDepth then
      StepResult.ret (setError s ForthError.stack_overflow)
    else StepResult.normal { s with stack := toInt32 (doITop s) :: s.stack }
  else if bytecode = CODE_J then
    if s.stack.length ≥ m.stackMaxDepth then
      StepResult.ret (setError s ForthError.stack_overflow)
    else StepResult.normal { s with stack := toInt32 (doJVal s) :: s.stack }
  else if bytecode = CODE_K then
    if s.stack.length ≥ m.stackMaxDepth then
      StepResult.ret (setError s ForthError.stack_overflow)
    else StepResult.normal { s with stack := toInt32 (doKVal s) :: s.stack }
  else if bytecode = CODE_DUP then
    match s.stack with
    | [] => StepResult.ret (setError s ForthError.stack_underflow)
    | v :: rest =>
      if s.stack.length ≥ m.stackMaxDepth then
        StepResult.ret (setError s ForthError.stack_overflow)
      else StepResult.normal { s with stack := v :: v :: rest }
  else if bytecode = CODE_DROP then
    match s.stack with
    | [] => StepResult.ret (setError s ForthError.stack_underflow)
    | _ :: rest => StepResult.normal { s with stack := rest }
  else if bytecode = CODE_SWAP then
    match s.stack with
    | b :: a :: rest => StepResult.normal { s with stack := a :: b :: rest }
    | _ => StepResult.ret (setError s ForthError.stack_underflow)
  else if bytecode = CODE_OVER then
    match s.stack with
    | b :: a :: rest =>
      if s.stack.length ≥ m.stackMaxDepth then
        StepResult.ret (setError s ForthError.stack_overflow)
      else StepResult.normal { s with stack := a :: b :: a :: rest }
    | _ => StepResult.ret (setError s ForthError.stack_underflow)
  else if bytecode = CODE_ROT then
    match s.stack with
    | c :: b :: a :: rest => StepResult.normal { s with stack := a :: c :: b :: rest }
    | _ => StepResult.ret (setError s ForthError.stack_underflow)
  else if bytecode = CODE_NIP then
    match s.stack with
    | b :: _ :: rest => StepResult.normal { s with stack := b :: rest }
    | _ => StepResult.ret (setError s ForthError.stack_underflow)
  else if bytecode = CODE_TUCK then
    match s.stack with
    | b :: a :: rest =>
      if s.stack.length ≥ m.stackMaxDepth then
        StepResult.ret (setError s ForthError.stack_overflow)
      else StepResult.normal { s with stack := b :: a :: b :: rest }
    | _ => StepResult.ret (setError s ForthError.stack_underflow)
  else if bytecode = CODE_ADD then
    match s.stack with
    | b :: a :: rest => StepResult.normal { s with stack := (a + b) :: rest }
    | _ => StepResult.ret (setError s ForthError.stack_underflow)
  else if bytecode = CODE_SUB then
    match s.stack with
    | b :: a :: rest => StepResult.normal { s with stack := (a - b) :: rest }
    | _ => StepResult.ret (setError s ForthError.stack_underflow)
  else if bytecode = CODE_MUL then
    match s.stack with
    | b :: a :: rest => StepResult.normal { s with stack := (a * b) :: rest }
    | _ => StepResult.ret (setError s ForthError.stack_underflow)
  else if bytecode = CODE_DIV then
    match s.stack with
    | b :: a :: rest =>
      if b = 0 then
        -- stack_pop2_before_pushing1 has already dropped one cell
        StepResult.ret (setError { s with stack := a :: rest } ForthError.division_by_zero)
      else
        -- Forth does floor division; C++ integer division truncates, so the
        -- quotient is adjusted when inexact and the operand signs differ.
        let tmp := Int.tdiv a b
        let q := if tmp * b = a then tmp
                 else tmp - (if (decide (a < 0)).xor (decide (b < 0)) then 1 else 0)
        StepResult.normal { s with stack := q :: rest }
    | _ => StepResult.ret (setError s ForthError.stack_underflow)
  else if bytecode = CODE_MOD then
    match s.stack with
    | b :: a :: rest =>
      if b = 0 then
        StepResult.ret (setError { s with stack := a :: rest } ForthError.division_by_zero)
      else
        -- Forth does modulo; the C++ remainder takes the dividend's sign,
        -- so the source re-centres it: (b + a % b) % b.
        StepResult.normal { s with stack := Int.tmod (b + Int.tmod a b) b :: rest }
    | _ => StepResult.ret (setError s ForthError.stack_underflow)
  else if bytecode = CODE_DIVMOD then
    match s.stack with
    | b :: a :: rest =>
      if b = 0 then
        StepResult.ret (setError s ForthError.division_by_zero)
      else
        let tmp := Int.tdiv a b
        let q := if tmp * b = a then tmp
                 else tmp - (if (decide (a < 0)).xor (decide (b < 0)) then 1 else 0)
        StepResult.normal { s with stack := q :: Int.tmod (b + Int.tmod a b) b :: rest }
    | _ => StepResult.ret (setError s ForthError.stack_underflow)
  else if bytecode = CODE_NEGATE then
    match s.stack with
    | v :: rest => StepResult.normal { s with stack := (-v) :: rest }
    | _ => StepResult.ret (setError s ForthError.stack_underflow)
  else if bytecode = CODE_ADD1 then
    match s.stack with
    | v :: rest => StepResult.normal { s with stack := (v + 1) :: rest }
    | _ => StepResult.ret (setError s ForthError.stack_underflow)
  else if bytecode = CODE_SUB1 then
    match s.stack with
    | v :: rest => StepResult.normal { s with stack := (v - 1) :: rest }
    | _ => StepResult.ret (setError s ForthError.stack_underflow)
  else if bytecode = CODE_ABS then
    match s.stack with
    | v :: rest => StepResult.normal { s with stack := |v| :: rest }
    | _ => StepResult.ret (setError s ForthError.stack_underflow)
  else if bytecode = CODE_MIN then
    match s.stack with
    | b :: a :: rest => StepResult.normal { s with stack := min a b :: rest }
    | _ => StepResult.ret (setError s ForthError.stack_underflow)
  else if bytecode = CODE_MAX then
    match s.stack with
    | b :: a :: rest => StepResult.normal { s with stack := max a b :: rest }
    | _ => StepResult.ret (setError s ForthError.stack_underflow)
  else if bytecode = CODE_EQ then
    match s.stack with
    | b :: a :: rest =>
      StepResult.normal { s with stack := (if a = b then -1 else 0) :: rest }
    | _ => StepResult.ret (setError s ForthError.stack_underflow)
  else if bytecode = CODE_NE then
    match s.stack with
    | b :: a :: rest =>
      StepResult.normal { s with stack := (if a ≠ b then -1 else 0) :: rest }
    | _ => StepResult.ret (setError s ForthError.stack_underflow)
  else if bytecode = CODE_GT then
    match s.stack with
    | b :: a :: rest =>
      StepResult.normal { s with stack := (if a > b then -1 else 0) :: rest }
    | _ => StepResult.ret (setError s ForthError.stack_underflow)
  else if bytecode = CODE_GE then
    match s.stack with
    | b :: a :: rest =>
      StepResult.normal { s with stack := (if a ≥ b then -1 else 0) :: rest }
    | _ => StepResult.ret (setError s ForthError.stack_underflow)
  else if bytecode = CODE_LT then
    match s.stack with
    | b :: a :: rest =>
      StepResult.normal { s with stack := (if a < b then -1 else 0) :: rest }
    | _ => StepResult.ret (setError s ForthError.stack_underflow)
  else if bytecode = CODE_LE then
    match s.stack with
    | b :: a :: rest =>
      StepResult.normal { s with stack := (if a ≤ b then -1 else 0) :: rest }
    | _ => StepResult.ret (setError s ForthError.stack_underflow)
  else if bytecode = CODE_EQ0 then
    match s.stack with
    | v :: rest =>
      StepResult.normal { s with stack := (if v = 0 then -1 else 0) :: rest }
    | _ => StepResult.ret (setError s ForthError.stack_underflow)
  else if bytecode = CODE_INVERT then
    match s.stack with
    | v :: rest => StepResult.normal { s with stack := (-v - 1) :: rest }
    | _ => StepResult.ret (setError s ForthError.stack_underflow)
  else if bytecode = CODE_AND then
    match s.stack with
    | b :: a :: rest => StepResult.normal { s with stack := Int.land a b :: rest }
    | _ => StepResult.ret (setError s ForthError.stack_underflow)
  else if bytecode = CODE_OR then
    match s.stack with
    | b :: a :: rest => StepResult.normal { s with stack := Int.lor a b :: rest }
    | _ => StepResult.ret (setError s ForthError.stack_underflow)
  else if bytecode = CODE_XOR then
    match s.stack with
    | b :: a :: rest => StepResult.normal { s with stack := Int.xor a b :: rest }
    | _ => StepResult.ret (setError s ForthError.stack_underflow)
  else if bytecode = CODE_LSHIFT then
    match s.stack with
    | b :: a :: rest => StepResult.normal { s with stack := (a * 2 ^ b.toNat) :: rest }
    | _ => StepResult.ret (setError s ForthError.stack_underflow)
  else if bytecode = CODE_RSHIFT then
    match s.stack with
    | b :: a :: rest => StepResult.normal { s with stack := Int.fdiv a (2 ^ b.toNat) :: rest }
    | _ => StepResult.ret (setError s ForthError.stack_underflow)
  else if bytecode = CODE_FALSE then
    if s.stack.length ≥ m.stackMaxDepth then
      StepResult.ret (setError s ForthError.stack_overflow)
    else StepResult.normal { s with stack := 0 :: s.stack }
  else if bytecode = CODE_TRUE then
    if s.stack.length ≥ m.stackMaxDepth then
      StepResult.ret (setError s ForthError.stack_overflow)
    else StepResult.normal { s with stack := -1 :: s.stack }
  else
    -- an opcode outside the defined set: the C++ switch falls through
    StepResult.normal s

/-- The `after_end_of_segment` block: pop the finished frame, then do the
end-of-iteration bookkeeping of an enclosing current do-loop. -/
def endOfSegment (s : RunState) : RunState :=
  let s := popFrame s
  if s.doStack.length ≠ 0 ∧ doAbsDepth s = s.frames.length then
    if doIsStepTop s then
      match s.stack with
      | [] => setError s ForthError.stack_underflow
      | v :: rest => bumpDoI { s with stack := rest } v
    else bumpDoI s 1
  else s

/-- The epilogue shared by every fall-through instruction of
`internal_run`: count the instruction, and in single-step mode pop a
finished segment frame and return; `next` is the continuation back into
the interpreter loop (the `afterEnd` case routes through
`after_end_of_segment` first). -/
def runEpilogue (m : Machine) (singleStep : Bool) (next : RunState → RunState) :
    StepResult → RunState
  | StepResult.ret s => s
  | StepResult.normal s =>
    let s := { s with countInstructions := s.countInstructions + 1 }
    if singleStep then
      if isSegmentDone m s then popFrame s else s
    else next s
  | StepResult.afterEnd s =>
    let s := endOfSegment s
    if s.currentError ≠ ForthError.none then s
    else next s

/-- `ForthMachineOf::internal_run(single_step, recursion_target_depth_top)`.
Fuel only bounds the number of loop iterations; with enough fuel the
result is exactly the source's (the engine either terminates or the fuel
runs out mid-loop, leaving the current state). -/
def internalRun (m : Machine) (singleStep : Bool) (target : Nat) :
    Nat → RunState → RunState
  | 0, s => s
  | fuel + 1, s =>
    if s.frames.length = target then s
    else if s.topWhere < m.seglen s.topWhich then
      let bytecode := m.bytecodeAt s.topWhich s.topWhere
      if s.doStack.length ≠ 0 ∧ doAbsDepth s = s.frames.length then
        if doITop s ≥ doStopTop s then
          -- end a 'do' loop
          internalRun m singleStep target fuel (advanceWhere (popDo s))
        else
          -- leave 'where' unchanged: re-dispatch the loop body
          runEpilogue m singleStep (internalRun m singleStep target fuel)
            (execInstr m singleStep bytecode s)
      else
        runEpilogue m singleStep (internalRun m singleStep target fuel)
          (execInstr m singleStep bytecode (advanceWhere s))
    else
      let s := endOfSegment s
      if s.currentError ≠ ForthError.none then s
      else internalRun m singleStep target fuel s

/-! ## Session lifecycle (`reset`, `begin`, `step`, `resume`, `run`) -/

/-- `is_ready()` (header accessor for the `is_ready_` flag). -/
def RunState.is_ready (s : RunState) : Bool := s.isReady

/-- `is_done()`.  Modelled from the spec (§6 Observable state): "no
segments on the recursion stack". -/
def RunState.is_done (s : RunState) : Bool := s.frames.isEmpty

/-- `ForthMachineOf::reset`: clear the session state (the instruction,
read and write counters are untouched; only `count_reset` clears those). -/
def reset (m : Machine) (s : RunState) : RunState :=
  { stack := []
    variableCells := m.variableNames.map (fun _ => 0)
    currentInputs := []
    currentOutputs := []
    isReady := false
    frames := []
    doStack := []
    targetDepth := []
    currentError := ForthError.none
    countInstructions := s.countInstructions
    countReads := s.countReads
    countWrites := s.countWrites }

/-- The fresh state a newly constructed machine starts from. -/
def initialState (m : Machine) : RunState :=
  reset m
    { stack := [], variableCells := [], currentInputs := [], currentOutputs := []
      isReady := false, frames := [], doStack := [], targetDepth := []
      currentError := ForthError.none
      countInstructions := 0, countReads := 0, countWrites := 0 }

/-- The input-gathering loop of `begin`: for every declared input name, in
declaration order, find the caller's buffer (failing when absent; entries
of the map that match no declared name are never consulted). -/
def gatherInputs (inputs : List (String × ForthInput)) :
    List String → Except Unit (List ForthInput)
  | [] => Except.ok []
  | n :: rest =>
    match inputs.find? (fun p => p.1 = n) with
    | none => Except.error ()
    | some p =>
      match gatherInputs inputs rest with
      | Except.error e => Except.error e
      | Except.ok l => Except.ok (p.2 :: l)

/-- `ForthMachineOf::begin(inputs)`: reset, bind the declared inputs
(throwing `std::invalid_argument` — the `Except.error` — when one is
missing), allocate one output buffer per declared output with its declared
dtype, push the sentinel target depth 0 and the top-level segment frame,
and mark the machine ready. -/
def begin (m : Machine) (s : RunState) (inputs : List (String × ForthInput)) :
    Except Unit RunState :=
  let s := reset m s
  match gatherInputs inputs m.inputNames with
  | Except.error _ => Except.error ()
  | Except.ok ins =>
    let s := { s with
      currentInputs := ins
      currentOutputs := m.outputDtypes.map (fun d => { dtype := d, data := [] }) }
    let s := { s with targetDepth := 0 :: s.targetDepth }
    let s := pushFrame s 0
    Except.ok { s with isReady := true }

/-- `ForthMachineOf::step`. -/
def step (m : Machine) (s : RunState) (fuel : Nat := 1000000) :
    RunState × ForthError :=
  if !s.is_ready then
    (setError s ForthError.not_ready, ForthError.not_ready)
  else if s.is_done then
    (setError s ForthError.is_done, ForthError.is_done)
  else if s.currentError ≠ ForthError.none then
    (s, s.currentError)
  else
    let target := s.targetDepth.headD 0
    let s := internalRun m true target fuel s
    let s := if s.frames.length = s.targetDepth.headD 0 then
               { s with targetDepth := s.targetDepth.tail }
             else s
    (s, s.currentError)

/-- `ForthMachineOf::resume`. -/
def resume (m : Machine) (s : RunState) (fuel : Nat := 1000000) :
    RunState × ForthError :=
  if !s.is_ready then
    (setError s ForthError.not_ready, ForthError.not_ready)
  else if s.is_done then
    (setError s ForthError.is_done, ForthError.is_done)
  else if s.currentError ≠ ForthError.none then
    (s, s.currentError)
  else
    let target := s.targetDepth.headD 0
    let s := internalRun m false target fuel s
    let s := if s.frames.length = s.targetDepth.headD 0 then
               { s with targetDepth := s.targetDepth.tail }
             else s
    (s, s.currentError)

/-- `ForthMachineOf::run(inputs)`: `begin` and drive to completion. -/
def run (m : Machine) (s : RunState) (inputs : List (String × ForthInput))
    (fuel : Nat := 1000000) : Except Unit (RunState × ForthError) :=
  match begin m s inputs with
  | Except.error e => Except.error e
  | Except.ok s =>
    let target := s.targetDepth.headD 0
    let s := internalRun m false target fuel s
    let s := if s.frames.length = s.targetDepth.headD 0 then
               { s with targetDepth := s.targetDepth.tail }
             else s
    Except.ok (s, s.currentError)

/-- Compile a source text and `run()` it with no inputs, from a fresh
machine (the end-to-end scenarios of §8 of the spec). -/
def runSource (source : String) (fuel : Nat := 100000) :
    Except CompileErr (Option (RunState × ForthError)) :=
  match compileSource source with
  | Except.error e => Except.error e
  | Except.ok m =>
    match run m (initialState m) [] fuel with
    | Except.error _ => Except.ok none
    | Except.ok r => Except.ok (some r)

/-! ## Decompiler (`decompiled`, `decompiled_segment`, `decompiled_at`) -/

/-- The `std::runtime_error`s the decompiler can raise ("segment … does
not exist in the bytecode" / "absolute position … does not exist in the
bytecode"); message text not modelled. -/
inductive DecompErr where
  | segmentOutOfRange
  | positionOutOfRange
  | outOfFuel
  deriving DecidableEq, Repr

/-- `ForthMachineOf::segment_nonempty`. -/
def segment_nonempty (m : Machine) (segmentPosition : Nat) : Bool :=
  m.offsets.getD segmentPosition 0 ≠ m.offsets.getD (segmentPosition + 1) 0

/-- `ForthMachineOf::bytecodes_per_instruction`. -/
def bytecodes_per_instruction (m : Machine) (bytecodePosition : Nat) : Nat :=
  let bytecode := m.bytecodes.getD bytecodePosition 0
  let nextBytecode :=
    if bytecodePosition + 1 < m.bytecodes.length then
      m.bytecodes.getD (bytecodePosition + 1) 0
    else 0
  if bytecode < 0 then
    if (-bytecode - 1).toNat &&& READ_DIRECT ≠ 0 then 3 else 2
  else if nextBytecode = CODE_AGAIN ∨ nextBytecode = CODE_UNTIL then 2
  else if nextBytecode = CODE_WHILE then 3
  else if bytecode = CODE_IF_ELSE then 3
  else if bytecode = CODE_LITERAL ∨ bytecode = CODE_IF ∨ bytecode = CODE_DO ∨
          bytecode = CODE_DO_STEP ∨ bytecode = CODE_EXIT ∨ bytecode = CODE_PUT ∨
          bytecode = CODE_INC ∨ bytecode = CODE_GET ∨ bytecode = CODE_LEN_INPUT ∨
          bytecode = CODE_POS ∨ bytecode = CODE_END ∨ bytecode = CODE_SEEK ∨
          bytecode = CODE_SKIP ∨ bytecode = CODE_WRITE ∨ bytecode = CODE_LEN_OUTPUT ∨
          bytecode = CODE_REWIND then 2
  else 1

/-- The parser-word spelling that `decompiled_at` rebuilds for a typed-I/O
opcode (the `rep`/`big`/`rest` pieces). -/
def parserArrowText (flags : Nat) : String :=
  let rep := if flags &&& READ_REPEATED ≠ 0 then "#" else ""
  let big := if flags &&& READ_BIGENDIAN ≠ 0 then "!" else ""
  let mask := flags &&& READ_MASK
  let rest :=
    if mask = READ_BOOL then "?->"
    else if mask = READ_INT8 then "b->"
    else if mask = READ_INT16 then "h->"
    else if mask = READ_INT32 then "i->"
    else if mask = READ_INT64 then "q->"
    else if mask = READ_INTP then "n->"
    else if mask = READ_UINT8 then "B->"
    else if mask = READ_UINT16 then "H->"
    else if mask = READ_UINT32 then "I->"
    else if mask = READ_UINT64 then "Q->"
    else if mask = READ_UINTP then "N->"
    else if mask = READ_FLOAT32 then "f->"
    else if mask = READ_FLOAT64 then "d->"
    else ""
  rep ++ big ++ rest

mutual

/-- `ForthMachineOf::decompiled_segment`. -/
def decompiledSegment (m : Machine) (segmentPosition : Int) (indent : String) :
    Nat → Except DecompErr String
  | 0 => Except.error DecompErr.outOfFuel
  | fuel + 1 =>
    if segmentPosition < 0 ∨ segmentPosition + 1 ≥ (m.offsets.length : Int) then
      Except.error DecompErr.segmentOutOfRange
    else
      decompiledLoop m (m.offsets.getD segmentPosition.toNat 0)
        (m.offsets.getD segmentPosition.toNat 0)
        (m.offsets.getD (segmentPosition.toNat + 1) 0) indent fuel
termination_by structural fuel => fuel

/-- The walk inside `decompiled_segment`, one instruction per iteration. -/
def decompiledLoop (m : Machine) (segStart bytecodePosition endPosition : Nat)
    (indent : String) : Nat → Except DecompErr String
  | 0 => Except.error DecompErr.outOfFuel
  | fuel + 1 =>
    if bytecodePosition ≥ endPosition then Except.ok ""
    else
      match decompiledAt m (bytecodePosition : Int) indent fuel with
      | Except.error e => Except.error e
      | Except.ok line =>
        match decompiledLoop m segStart
            (bytecodePosition + bytecodes_per_instruction m bytecodePosition)
            endPosition indent fuel with
        | Except.error e => Except.error e
        | Except.ok rest =>
          Except.ok ((if bytecodePosition ≠ segStart then indent else "")
                     ++ line ++ "\n" ++ rest)
termination_by structural fuel => fuel

/-- `ForthMachineOf::decompiled_at`. -/
def decompiledAt (m : Machine) (bytecodePosition : Int) (indent : String) :
    Nat → Except DecompErr String
  | 0 => Except.error DecompErr.outOfFuel
  | fuel + 1 =>
    if bytecodePosition < 0 ∨ bytecodePosition ≥ (m.bytecodes.length : Int) then
      Except.error DecompErr.positionOutOfRange
    else
      let pos := bytecodePosition.toNat
      let bytecode := m.bytecodes.getD pos 0
      let nextBytecode :=
        if pos + 1 < m.bytecodes.length then m.bytecodes.getD (pos + 1) 0 else 0
      if bytecode < 0 then
        let flags := (-bytecode - 1).toNat
        let inName := m.inputNames.getD (m.bytecodes.getD (pos + 1) 0).toNat ""
        let outName :=
          if flags &&& READ_DIRECT ≠ 0 then
            m.outputNames.getD (m.bytecodes.getD (pos + 2) 0).toNat ""
          else "stack"
        Except.ok (inName ++ " " ++ parserArrowText flags ++ " " ++ outName)
      else if nextBytecode = CODE_AGAIN then
        let body := bytecode - BOUND_DICTIONARY
        match decompiledSegment m body (indent ++ "  ") fuel with
        | Except.error e => Except.error e
        | Except.ok seg =>
          Except.ok ("begin\n"
                     ++ (if segment_nonempty m body.toNat then indent ++ "  " else "")
                     ++ seg ++ indent ++ "again")
      else if nextBytecode = CODE_UNTIL then
        let body := bytecode - BOUND_DICTIONARY
        match decompiledSegment m body (indent ++ "  ") fuel with
        | Except.error e => Except.error e
        | Except.ok seg =>
          Except.ok ("begin\n"
                     ++ (if segment_nonempty m body.toNat then indent ++ "  " else "")
                     ++ seg ++ indent ++ "until")
      else if nextBytecode = CODE_WHILE then
        let precondition := bytecode - BOUND_DICTIONARY
        let postcondition := m.bytecodes.getD (pos + 2) 0 - BOUND_DICTIONARY
        match decompiledSegment m precondition (indent ++ "  ") fuel with
        | Except.error e => Except.error e
        | Except.ok preSeg =>
          match decompiledSegment m postcondition (indent ++ "  ") fuel with
          | Except.error e => Except.error e
          | Except.ok postSeg =>
            Except.ok ("begin\n"
                       ++ (if segment_nonempty m precondition.toNat then indent ++ "  " else "")
                       ++ preSeg ++ indent ++ "while\n"
                       ++ (if segment_nonempty m postcondition.toNat then indent ++ "  " else "")
                       ++ postSeg ++ indent ++ "repeat")
      else if bytecode ≥ BOUND_DICTIONARY then
        match (m.dictionaryNames.zip m.dictionaryBytecodes).find?
            (fun p => p.2 = bytecode) with
        | some p => Except.ok p.1
        | none =>
          Except.ok ("(anonymous segment at "
                     ++ toString (bytecode - BOUND_DICTIONARY) ++ ")")
      else if bytecode = CODE_LITERAL then
        Except.ok (toString (m.bytecodes.getD (pos + 1) 0))
      else if bytecode = CODE_HALT then Except.ok "halt"
      else if bytecode = CODE_PAUSE then Except.ok "pause"
      else if bytecode = CODE_IF then
        let consequent := m.bytecodes.getD (pos + 1) 0 - BOUND_DICTIONARY
        match decompiledSegment m consequent (indent ++ "  ") fuel with
        | Except.error e => Except.error e
        | Except.ok seg =>
          Except.ok ("if\n"
                     ++ (if segment_nonempty m consequent.toNat then indent ++ "  " else "")
                     ++ seg ++ indent ++ "then")
      else if bytecode = CODE_IF_ELSE then
        let consequent := m.bytecodes.getD (pos + 1) 0 - BOUND_DICTIONARY
        let alternate := m.bytecodes.getD (pos + 2) 0 - BOUND_DICTIONARY
        match decompiledSegment m consequent (indent ++ "  ") fuel with
        | Except.error e => Except.error e
        | Except.ok conSeg =>
          match decompiledSegment m alternate (indent ++ "  ") fuel with
          | Except.error e => Except.error e
          | Except.ok altSeg =>
            Except.ok ("if\n"
                       ++ (if segment_nonempty m consequent.toNat then indent ++ "  " else "")
                       ++ conSeg ++ indent ++ "else\n"
                       ++ (if segment_nonempty m alternate.toNat then indent ++ "  " else "")
                       ++ altSeg ++ indent ++ "then")
      else if bytecode = CODE_DO then
        let body := m.bytecodes.getD (pos + 1) 0 - BOUND_DICTIONARY
        match decompiledSegment m body (indent ++ "  ") fuel with
        | Except.error e => Except.error e
        | Except.ok seg =>
          Except.ok ("do\n"
                     ++ (if segment_nonempty m body.toNat then indent ++ "  " else "")
                     ++ seg ++ indent ++ "loop")
      else if bytecode = CODE_DO_STEP then
        let body := m.bytecodes.getD (pos + 1) 0 - BOUND_DICTIONARY
        match decompiledSegment m body (indent ++ "  ") fuel with
        | Except.error e => Except.error e
        | Except.ok seg =>
          Except.ok ("do\n"
                     ++ (if segment_nonempty m body.toNat then indent ++ "  " else "")
                     ++ seg ++ indent ++ "+loop")
      else if bytecode = CODE_EXIT then Except.ok "exit"
      else if bytecode = CODE_PUT then
        Except.ok (m.variableNames.getD (m.bytecodes.getD (pos + 1) 0).toNat "" ++ " !")
      else if bytecode = CODE_INC then
        Except.ok (m.variableNames.getD (m.bytecodes.getD (pos + 1) 0).toNat "" ++ " +!")
      else if bytecode = CODE_GET then
        Except.ok (m.variableNames.getD (m.bytecodes.getD (pos + 1) 0).toNat "" ++ " @")
      else if bytecode = CODE_LEN_INPUT then
        Except.ok (m.inputNames.getD (m.bytecodes.getD (pos + 1) 0).toNat "" ++ " len")
      else if bytecode = CODE_POS then
        Except.ok (m.inputNames.getD (m.bytecodes.getD (pos + 1) 0).toNat "" ++ " pos")
      else if bytecode = CODE_END then
        Except.ok (m.inputNames.getD (m.bytecodes.getD (pos + 1) 0).toNat "" ++ " end")
      else if bytecode = CODE_SEEK then
        Except.ok (m.inputNames.getD (m.bytecodes.getD (pos + 1) 0).toNat "" ++ " seek")
      else if bytecode = CODE_SKIP then
        Except.ok (m.inputNames.getD (m.bytecodes.getD (pos + 1) 0).toNat "" ++ " skip")
      else if bytecode = CODE_WRITE then
        Except.ok (m.outputNames.getD (m.bytecodes.getD (pos + 1) 0).toNat "" ++ " <- stack")
      else if bytecode = CODE_LEN_OUTPUT then
        Except.ok (m.outputNames.getD (m.bytecodes.getD (pos + 1) 0).toNat "" ++ " len")
      else if bytecode = CODE_REWIND then
        Except.ok (m.outputNames.getD (m.bytecodes.getD (pos + 1) 0).toNat "" ++ " rewind")
      else if bytecode = CODE_I then Except.ok "i"
      else if bytecode = CODE_J then Except.ok "j"
      else if bytecode = CODE_K then Except.ok "k"
      else if bytecode = CODE_DUP then Except.ok "dup"
      else if bytecode = CODE_DROP then Except.ok "drop"
      else if bytecode = CODE_SWAP then Except.ok "swap"
      else if bytecode = CODE_OVER then Except.ok "over"
      else if bytecode = CODE_ROT then Except.ok "rot"
      else if bytecode = CODE_NIP then Except.ok "nip"
      else if bytecode = CODE_TUCK then Except.ok "tuck"
      else if bytecode = CODE_ADD then Except.ok "+"
      else if bytecode = CODE_SUB then Except.ok "-"
      else if bytecode = CODE_MUL then Except.ok "*"
      else if bytecode = CODE_DIV then Except.ok "/"
      else if bytecode = CODE_MOD then Except.ok "mod"
      else if bytecode = CODE_DIVMOD then Except.ok "/mod"
      else if bytecode = CODE_NEGATE then Except.ok "negate"
      else if bytecode = CODE_ADD1 then Except.ok "1+"
      else if bytecode = CODE_SUB1 then Except.ok "1-"
      else if bytecode = CODE_ABS then Except.ok "abs"
      else if bytecode = CODE_MIN then Except.ok "min"
      else if bytecode = CODE_MAX then Except.ok "max"
      else if bytecode = CODE_EQ then Except.ok "="
      else if bytecode = CODE_NE then Except.ok "<>"
      else if bytecode = CODE_GT then Except.ok ">"
      else if bytecode = CODE_GE then Except.ok ">="
      else if bytecode = CODE_LT then Except.ok "<"
      else if bytecode = CODE_LE then Except.ok "<="
      else if bytecode = CODE_EQ0 then Except.ok "0="
      else if bytecode = CODE_INVERT then Except.ok "invert"
      else if bytecode = CODE_AND then Except.ok "and"
      else if bytecode = CODE_OR then Except.ok "or"
      else if bytecode = CODE_XOR then Except.ok "xor"
      else if bytecode = CODE_LSHIFT then Except.ok "lshift"
      else if bytecode = CODE_RSHIFT then Except.ok "rshift"
      else if bytecode = CODE_FALSE then Except.ok "false"
      else if bytecode = CODE_TRUE then Except.ok "true"
      else Except.ok ("(unrecognized bytecode " ++ toString bytecode ++ ")")
termination_by structural fuel => fuel

end

/-- The dictionary-printing loop of `decompiled`. -/
def decompiledDict (m : Machine) (first : Bool) :
    List (String × Int) → Nat → Except DecompErr String
  | [], _ => Except.ok ""
  | (name, bytecode) :: rest, fuel =>
    let segmentPosition := bytecode - BOUND_DICTIONARY
    match decompiledSegment m segmentPosition "  " fuel with
    | Except.error e => Except.error e
    | Except.ok seg =>
      match decompiledDict m false rest fuel with
      | Except.error e => Except.error e
      | Except.ok restText =>
        Except.ok ((if first then "" else "\n")
                   ++ ": " ++ name ++ "\n"
                   ++ (if segment_nonempty m segmentPosition.toNat then "  " else "")
                   ++ seg ++ ";" ++ "\n" ++ restText)

/-- `util::dtype_to_name` for the output dtypes. -/
def dtypeName : Dtype → String
  | Dtype.boolean => "bool"
  | Dtype.int8 => "int8"
  | Dtype.int16 => "int16"
  | Dtype.int32 => "int32"
  | Dtype.int64 => "int64"
  | Dtype.uint8 => "uint8"
  | Dtype.uint16 => "uint16"
  | Dtype.uint32 => "uint32"
  | Dtype.uint64 => "uint64"
  | Dtype.float32 => "float32"
  | Dtype.float64 => "float64"

/-! ## Claim-support definitions

Projections of the end-to-end scenarios and the well-formed-instruction
predicate that the invariant claims quantify over. -/

/-- The final data stack after compiling and running a source (bottom of
stack last, top first); `none` when compilation or `begin` fails. -/
def finalStack (source : String) : Option (List Int) :=
  match runSource source with
  | Except.ok (some (s, _)) => some s.stack
  | _ => none

/-- The latched error after compiling and running a source. -/
def finalError (source : String) : Option ForthError :=
  match runSource source with
  | Except.ok (some (_, e)) => some e
  | _ => none

/-- Whether the machine is done after compiling and running a source. -/
def finalIsDone (source : String) : Option Bool :=
  match runSource source with
  | Except.ok (some (s, _)) => some s.is_done
  | _ => none

/-- The offsets vector produced by compiling a source. -/
def compiledOffsets (source : String) : Option (List Nat) :=
  match compileSource source with
  | Except.ok m => some m.offsets
  | Except.error _ => none

/-- A machine whose whole program is the single one-cell instruction `op`
(used to state the per-instruction arithmetic claims over an arbitrary
data stack). -/
def opMachine (op : Int) : Machine :=
  { bytecodes := [op]
    offsets := [0, 1]
    variableNames := []
    inputNames := []
    outputNames := []
    outputDtypes := []
    dictionaryNames := []
    dictionaryBytecodes := []
    stackMaxDepth := 1024
    recursionMaxDepth := 1024 }

/-- The ready-to-run state of `opMachine` with a given data stack (what
`begin` establishes, the stack preloaded). -/
def opState (stack : List Int) : RunState :=
  { stack := stack
    variableCells := []
    currentInputs := []
    currentOutputs := []
    isReady := true
    frames := [(0, 0)]
    doStack := []
    targetDepth := [0]
    currentError := ForthError.none
    countInstructions := 0
    countReads := 0
    countWrites := 0 }

/-- Well-formed instruction sequences with every segment reference
(call target at an instruction start, or a body-segment operand of the
structured-control opcodes) pointing to one of `n` segments.  The shapes
follow the instruction encoding of §3/§4.5: typed-I/O opcodes occupy two
or three slots, `CODE_LITERAL`/`CODE_EXIT` and the variable/input/output
opcodes carry one operand, `<seg> CODE_AGAIN|CODE_UNTIL` and
`<pre> CODE_WHILE <post>` place the reference first, and everything else
is a single slot. -/
inductive RefsOK (n : Nat) : List Int → Prop where
  | nil : RefsOK n []
  | io2 (v x : Int) (rest : List Int) : v < 0 →
      RefsOK n rest → RefsOK n (v :: x :: rest)
  | io3 (v x y : Int) (rest : List Int) : v < 0 →
      RefsOK n rest → RefsOK n (v :: x :: y :: rest)
  | literal (x : Int) (rest : List Int) :
      RefsOK n rest → RefsOK n (CODE_LITERAL :: x :: rest)
  | exit_ (x : Int) (rest : List Int) :
      RefsOK n rest → RefsOK n (CODE_EXIT :: x :: rest)
  | single (v : Int) (rest : List Int) :
      v = CODE_HALT ∨ v = CODE_PAUSE ∨ (CODE_I ≤ v ∧ v ≤ CODE_TRUE) →
      RefsOK n rest → RefsOK n (v :: rest)
  | op2 (v x : Int) (rest : List Int) : CODE_PUT ≤ v → v ≤ CODE_REWIND →
      RefsOK n rest → RefsOK n (v :: x :: rest)
  | if_ (r : Int) (rest : List Int) :
      BOUND_DICTIONARY ≤ r → r < BOUND_DICTIONARY + n →
      RefsOK n rest → RefsOK n (CODE_IF :: r :: rest)
  | ifElse (r1 r2 : Int) (rest : List Int) :
      BOUND_DICTIONARY ≤ r1 → r1 < BOUND_DICTIONARY + n →
      BOUND_DICTIONARY ≤ r2 → r2 < BOUND_DICTIONARY + n →
      RefsOK n rest → RefsOK n (CODE_IF_ELSE :: r1 :: r2 :: rest)
  | doLoop (c r : Int) (rest : List Int) :
      c = CODE_DO ∨ c = CODE_DO_STEP →
      BOUND_DICTIONARY ≤ r → r < BOUND_DICTIONARY + n →
      RefsOK n rest → RefsOK n (c :: r :: rest)
  | beginLoop (r c : Int) (rest : List Int) :
      c = CODE_AGAIN ∨ c = CODE_UNTIL →
      BOUND_DICTIONARY ≤ r → r < BOUND_DICTIONARY + n →
      RefsOK n rest → RefsOK n (r :: c :: rest)
  | whileLoop (r1 r2 : Int) (rest : List Int) :
      BOUND_DICTIONARY ≤ r1 → r1 < BOUND_DICTIONARY + n →
      BOUND_DICTIONARY ≤ r2 → r2 < BOUND_DICTIONARY + n →
      RefsOK n rest → RefsOK n (r1 :: CODE_WHILE :: r2 :: rest)
  | call (v : Int) (rest : List Int) :
      BOUND_DICTIONARY ≤ v → v < BOUND_DICTIONARY + n →
      RefsOK n rest → RefsOK n (v :: rest)

/-- The value of the longest decimal-digit prefix of a token (what
`std::stoul(word, nullptr, 10)` yields on a token whose first character
is a digit). -/
def decimalPrefixVal (w : String) : Nat :=
  (stoulDigits isDigit10 digitVal10 10 w.data 0 false).1

/-- The words matched literally by the dispatch of `parse` before the
name-table, builtin and integer fallbacks. -/
def parseDispatchWords : List String :=
  ["(", "\\", "\n", "", ":", "recurse", "variable", "input", "output",
   "halt", "pause", "if", "do", "begin", "exit"]

/-- `ForthMachineOf::decompiled`. -/
def decompiled (m : Machine) (fuel : Nat := 10000) : Except DecompErr String :=
  let varLines := String.join (m.variableNames.map (fun n => "variable " ++ n ++ "\n"))
  let inLines := String.join (m.inputNames.map (fun n => "input " ++ n ++ "\n"))
  let outLines := String.join ((m.outputNames.zip m.outputDtypes).map
    (fun p => "output " ++ p.1 ++ " " ++ dtypeName p.2 ++ "\n"))
  let first := m.variableNames.isEmpty && m.inputNames.isEmpty &&
               m.outputNames.isEmpty
  match decompiledDict m first (m.dictionaryNames.zip m.dictionaryBytecodes) fuel with
  | Except.error e => Except.error e
  | Except.ok dictText =>
    let firstAfter := first && m.dictionaryNames.isEmpty
    match decompiledSegment m 0 "" fuel with
    | Except.error e => Except.error e
    | Except.ok topText =>
      Except.ok (varLines ++ inLines ++ outLines ++ dictText
                 ++ (if !firstAfter ∧ m.offsets.getD 1 0 ≠ 0 then "\n" else "")
                 ++ topText)

/-- The latched error after `run()` of the program `halt`, paired with
the error a subsequent `step()` reports. -/
def stepAfterHalt : Option (ForthError × ForthError) :=
  match compileSource "halt" with
  | Except.ok m =>
    match run m (initialState m) [] 1000 with
    | Except.ok (s, e) => some (e, (step m s 1000).2)
    | Except.error _ => none
  | Except.error _ => none

deriving instance DecidableEq for Except

/-- `decompiled()` applied to the machine compiled from a source text. -/
def decompiledOfSource (source : String) : Option (Except DecompErr String) :=
  match compileSource source with
  | Except.ok m => some (decompiled m)
  | Except.error _ => none

/-! # Theorems

Helper lemmas first, then one theorem (with witness or counterexample)
per claim. -/

/-! ## State-projection helper lemmas -/

@[simp] theorem advanceWhere_stack (s : RunState) (n : Nat) :
    (advanceWhere s n).stack = s.stack := by
  cases h : s.frames <;> simp [advanceWhere, h]

@[simp] theorem advanceWhere_doStack (s : RunState) (n : Nat) :
    (advanceWhere s n).doStack = s.doStack := by
  cases h : s.frames <;> simp [advanceWhere, h]

@[simp] theorem advanceWhere_currentError (s : RunState) (n : Nat) :
    (advanceWhere s n).currentError = s.currentError := by
  cases h : s.frames <;> simp [advanceWhere, h]

@[simp] theorem advanceWhere_targetDepth (s : RunState) (n : Nat) :
    (advanceWhere s n).targetDepth = s.targetDepth := by
  cases h : s.frames <;> simp [advanceWhere, h]

@[simp] theorem advanceWhere_isReady (s : RunState) (n : Nat) :
    (advanceWhere s n).isReady = s.isReady := by
  cases h : s.frames <;> simp [advanceWhere, h]

@[simp] theorem advanceWhere_countInstructions (s : RunState) (n : Nat) :
    (advanceWhere s n).countInstructions = s.countInstructions := by
  cases h : s.frames <;> simp [advanceWhere, h]

@[simp] theorem advanceWhere_frames_length (s : RunState) (n : Nat) :
    (advanceWhere s n).frames.length = s.frames.length := by
  cases h : s.frames <;> simp [advanceWhere, h]

@[simp] theorem popFrame_stack (s : RunState) : (popFrame s).stack = s.stack := rfl

@[simp] theorem popFrame_currentError (s : RunState) :
    (popFrame s).currentError = s.currentError := rfl

@[simp] theorem popFrame_countInstructions (s : RunState) :
    (popFrame s).countInstructions = s.countInstructions := rfl

@[simp] theorem setError_stack (s : RunState) (e : ForthError) :
    (setError s e).stack = s.stack := rfl

/-! ## Arithmetic helper lemmas (floored division and remainder) -/

/-- `fmod` bounds for a negative divisor. -/
theorem fmod_bounds_neg : ∀ (a b : Int), b < 0 → b < a.fmod b ∧ a.fmod b ≤ 0 := by
  intro a b hb
  match a, b, hb with
  | Int.ofNat 0, b, hb =>
    rw [show Int.ofNat 0 = 0 from rfl, Int.zero_fmod]
    omega
  | Int.ofNat (Nat.succ m), Int.negSucc n, _ =>
    have h1 : (m : Int) % ((n : Int) + 1) < (n : Int) + 1 :=
      Int.emod_lt_of_pos _ (by omega)
    have h2 : 0 ≤ (m : Int) % ((n : Int) + 1) := Int.emod_nonneg _ (by omega)
    simp only [Int.fmod, Int.subNatNat_eq_coe, Int.negSucc_eq]
    push_cast
    omega
  | Int.negSucc m, Int.negSucc n, _ =>
    have h1 : ((m : Int) + 1) % ((n : Int) + 1) < (n : Int) + 1 :=
      Int.emod_lt_of_pos _ (by omega)
    have h2 : 0 ≤ ((m : Int) + 1) % ((n : Int) + 1) := Int.emod_nonneg _ (by omega)
    simp only [Int.fmod, Int.negSucc_eq, Int.ofNat_eq_coe]
    push_cast
    omega

theorem neg_tmod (a b : Int) : (-a).tmod b = -(a.tmod b) := by
  rw [Int.tmod_def, Int.tmod_def, Int.neg_tdiv]
  ring

theorem tmod_nonpos (a b : Int) (h : a ≤ 0) : a.tmod b ≤ 0 := by
  have := Int.tmod_nonneg b (a := -a) (by omega)
  rw [neg_tmod] at this
  omega

theorem tmod_lt_abs (a b : Int) (hb : b ≠ 0) : a.tmod b < |b| := by
  rcases lt_or_gt_of_ne hb with h | h
  · have : a.tmod (-b) < -b := Int.tmod_lt_of_pos a (by omega)
    rw [Int.tmod_neg] at this
    rw [abs_of_neg h]
    omega
  · have := Int.tmod_lt_of_pos a h
    rw [abs_of_pos h]
    omega

theorem neg_abs_lt_tmod (a b : Int) (hb : b ≠ 0) : -|b| < a.tmod b := by
  have := tmod_lt_abs (-a) b hb
  rw [neg_tmod] at this
  omega

/-- Uniqueness of the floored division pair. -/
theorem fdiv_fmod_unique {a b q r : Int} (h : b * q + r = a)
    (hbnd : (0 < b ∧ 0 ≤ r ∧ r < b) ∨ (b < 0 ∧ b < r ∧ r ≤ 0)) :
    q = a.fdiv b ∧ r = a.fmod b := by
  have hsum : a.fmod b + b * a.fdiv b = a := Int.fmod_add_fdiv a b
  have hkey : b * (q - a.fdiv b) = a.fmod b - r := by linarith [mul_sub b q (a.fdiv b)]
  have hbne : b ≠ 0 := by rcases hbnd with ⟨h1, _⟩ | ⟨h1, _⟩ <;> omega
  have hdq : q - a.fdiv b = 0 := by
    by_contra hne
    have h8 : 1 ≤ |q - a.fdiv b| :=
      Int.one_le_abs (fun hx => hne (by omega))
    have h10 : |b| * 1 ≤ |b| * |q - a.fdiv b| :=
      mul_le_mul_of_nonneg_left h8 (abs_nonneg b)
    rw [mul_one, ← abs_mul, hkey] at h10
    rcases hbnd with ⟨hpos, h3, h4⟩ | ⟨hneg, h3, h4⟩
    · have h6 := Int.fmod_nonneg' a hpos
      have h7 := Int.fmod_lt_of_pos a hpos
      rw [abs_of_pos hpos] at h10
      have h11 : |a.fmod b - r| < b := abs_lt.mpr (by constructor <;> omega)
      omega
    · have h6 := (fmod_bounds_neg a b hneg).1
      have h7 := (fmod_bounds_neg a b hneg).2
      rw [abs_of_neg hneg] at h10
      have h11 : |a.fmod b - r| < -b := abs_lt.mpr (by constructor <;> omega)
      omega
  constructor
  · omega
  · have hq : q = a.fdiv b := by omega
    subst hq
    linarith

/-- The re-centred truncated remainder computed by `CODE_MOD` is the
floored remainder. -/
theorem tmod_recenter (a b : Int) (hb : b ≠ 0) :
    (b + a.tmod b).tmod b = a.fmod b := by
  have hsum1 : a.tmod b + b * a.tdiv b = a := Int.tmod_add_tdiv a b
  have hsum2 : (b + a.tmod b).tmod b + b * (b + a.tmod b).tdiv b = b + a.tmod b :=
    Int.tmod_add_tdiv _ b
  have habs1 := tmod_lt_abs a b hb
  have habs2 := neg_abs_lt_tmod a b hb
  have hq : b * (a.tdiv b - 1 + (b + a.tmod b).tdiv b) + (b + a.tmod b).tmod b = a := by
    have hexp : b * (a.tdiv b - 1 + (b + a.tmod b).tdiv b) =
        b * a.tdiv b - b + b * (b + a.tmod b).tdiv b := by ring
    omega
  rcases lt_or_gt_of_ne hb with hneg | hpos
  · have hd : b + a.tmod b ≤ 0 := by rw [abs_of_neg hneg] at habs1; omega
    have hbound1 : (b + a.tmod b).tmod b ≤ 0 := tmod_nonpos _ _ hd
    have hbound2 : -|b| < (b + a.tmod b).tmod b := neg_abs_lt_tmod _ _ hb
    rw [abs_of_neg hneg] at hbound2
    exact (fdiv_fmod_unique hq (Or.inr ⟨hneg, by omega, hbound1⟩)).2
  · have hd : 0 ≤ b + a.tmod b := by rw [abs_of_pos hpos] at habs2; omega
    have hbound1 : 0 ≤ (b + a.tmod b).tmod b := Int.tmod_nonneg _ hd
    have hbound2 : (b + a.tmod b).tmod b < |b| := tmod_lt_abs _ _ hb
    rw [abs_of_pos hpos] at hbound2
    exact (fdiv_fmod_unique hq (Or.inl ⟨hpos, hbound1, hbound2⟩)).2

/-- The truncation-adjustment formula computed by `CODE_DIV` is the
floored quotient. -/
theorem tdiv_adjust (a b : Int) (hb : b ≠ 0) :
    (if a.tdiv b * b = a then a.tdiv b
     else a.tdiv b - (if (decide (a < 0)).xor (decide (b < 0)) then 1 else 0)) =
    a.fdiv b := by
  have hsum1 : a.tmod b + b * a.tdiv b = a := Int.tmod_add_tdiv a b
  have habs1 := tmod_lt_abs a b hb
  have habs2 := neg_abs_lt_tmod a b hb
  by_cases hex : a.tdiv b * b = a
  · have hr : a.tmod b = 0 := by
      have : b * a.tdiv b = a.tdiv b * b := by ring
      omega
    have hthis : b * a.tdiv b + 0 = a := by
      have : b * a.tdiv b = a.tdiv b * b := by ring
      omega
    rcases lt_or_gt_of_ne hb with hneg | hpos
    · simpa [hex] using (fdiv_fmod_unique hthis (Or.inr ⟨hneg, by omega, le_refl 0⟩)).1
    · simpa [hex] using (fdiv_fmod_unique hthis (Or.inl ⟨hpos, le_refl 0, hpos⟩)).1
  · have hr : a.tmod b ≠ 0 := by
      intro h0
      apply hex
      have : b * a.tdiv b = a.tdiv b * b := by ring
      omega
    rcases le_or_lt 0 a with ha | ha <;> rcases lt_or_gt_of_ne hb with hbneg | hbpos
    · -- a ≥ 0, b < 0: adjust by 1
      have hr0 : 0 ≤ a.tmod b := Int.tmod_nonneg b ha
      rw [abs_of_neg hbneg] at habs1
      have hthis : b * (a.tdiv b - 1) + (a.tmod b + b) = a := by
        have : b * (a.tdiv b - 1) = b * a.tdiv b - b := by ring
        omega
      have hq := (fdiv_fmod_unique hthis (Or.inr ⟨hbneg, by omega, by omega⟩)).1
      have hd1 : decide (a < 0) = false := by simp only [decide_eq_false_iff_not]; omega
      have hd2 : decide (b < 0) = true := by simp only [decide_eq_true_eq]; omega
      rw [if_neg hex, hd1, hd2]
      norm_num
      omega
    · -- a ≥ 0, b > 0: no adjustment
      have hr0 : 0 ≤ a.tmod b := Int.tmod_nonneg b ha
      rw [abs_of_pos hbpos] at habs1
      have hthis : b * a.tdiv b + a.tmod b = a := by omega
      have hq := (fdiv_fmod_unique hthis (Or.inl ⟨hbpos, hr0, habs1⟩)).1
      have hd1 : decide (a < 0) = false := by simp only [decide_eq_false_iff_not]; omega
      have hd2 : decide (b < 0) = false := by simp only [decide_eq_false_iff_not]; omega
      rw [if_neg hex, hd1, hd2]
      norm_num
      omega
    · -- a < 0, b < 0: no adjustment
      have hr0 : a.tmod b ≤ 0 := tmod_nonpos a b (by omega)
      rw [abs_of_neg hbneg] at habs2
      have hthis : b * a.tdiv b + a.tmod b = a := by omega
      have hq := (fdiv_fmod_unique hthis (Or.inr ⟨hbneg, by omega, hr0⟩)).1
      have hd1 : decide (a < 0) = true := by simp only [decide_eq_true_eq]; omega
      have hd2 : decide (b < 0) = true := by simp only [decide_eq_true_eq]; omega
      rw [if_neg hex, hd1, hd2]
      norm_num
      omega
    · -- a < 0, b > 0: adjust by 1
      have hr0 : a.tmod b ≤ 0 := tmod_nonpos a b (by omega)
      rw [abs_of_pos hbpos] at habs2
      have hthis : b * (a.tdiv b - 1) + (a.tmod b + b) = a := by
        have : b * (a.tdiv b - 1) = b * a.tdiv b - b := by ring
        omega
      have hq := (fdiv_fmod_unique hthis (Or.inl ⟨hbpos, by omega, by omega⟩)).1
      have hd1 : decide (a < 0) = true := by simp only [decide_eq_true_eq]; omega
      have hd2 : decide (b < 0) = false := by simp only [decide_eq_false_iff_not]; omega
      rw [if_neg hex, hd1, hd2]
      norm_num
      omega


/-- Variant of `tdiv_adjust` in the shape `norm_num` produces. -/
theorem tdiv_adjust_iff (a b : Int) (hb : b ≠ 0) :
    (if a.tdiv b * b = a then a.tdiv b
     else a.tdiv b - if a < 0 ↔ b < 0 then 0 else 1) = a.fdiv b := by
  have h := tdiv_adjust a b hb
  convert h using 2
  by_cases h1 : a < 0 <;> by_cases h2 : b < 0 <;> simp [h1, h2]

/-- One iteration of `internal_run` on the normal dispatch path: the
outer loop is entered, the current segment is not finished, and no
current do-loop frame diverts the fetch. -/
theorem internalRun_dispatch (m : Machine) (ss : Bool) (t fuel : Nat) (s : RunState)
    (hdepth : s.frames.length ≠ t)
    (hwh : s.topWhere < m.seglen s.topWhich)
    (hdo : ¬(s.doStack.length ≠ 0 ∧ doAbsDepth s = s.frames.length)) :
    internalRun m ss t (fuel + 1) s =
      runEpilogue m ss (internalRun m ss t fuel)
        (execInstr m ss (m.bytecodeAt s.topWhich s.topWhere) (advanceWhere s)) := by
  rw [internalRun, if_neg hdepth, if_pos hwh, if_neg hdo]

/-! ## C1: the remainder convention of `mod` and `/mod` -/

/-- C1 (counterexample): the claim asserts that `mod` leaves the Euclidean
(non-negative) remainder even for a negative divisor.  Running the
program `7 -2 mod` leaves `-1` on the stack, whereas the Euclidean
remainder of 7 mod -2 is 1; the result is negative. -/
theorem c1_counterexample :
    finalStack "7 -2 mod" = some [-1] ∧
    finalError "7 -2 mod" = some ForthError.none ∧
    Int.emod 7 (-2) = 1 ∧
    ¬((-1 : Int) = Int.emod 7 (-2)) ∧ ¬(0 ≤ (-1 : Int)) := by
  refine ⟨by decide, by decide, by decide, by decide, by decide⟩

/-- C1 (amended): for every two data-stack cells `a` (below) and `b`
(top) with `b ≠ 0`, executing `mod` replaces them with the FLOORED
remainder `Int.fmod a b` (the sign of the divisor), and `/mod` produces
its remainder in the same convention; this equals the Euclidean
(non-negative) remainder whenever the divisor is positive — in
particular `-7 2 mod` leaves 1 — but for a negative divisor the
remainder is ≤ 0, not non-negative. -/
theorem c1_mod_floored :
    (∀ (m : Machine) (s : RunState) (t : Nat) (a b : Int) (rest : List Int),
      s.frames.length ≠ t →
      s.topWhere < m.seglen s.topWhich →
      m.bytecodeAt s.topWhich s.topWhere = CODE_MOD →
      ¬(s.doStack.length ≠ 0 ∧ doAbsDepth s = s.frames.length) →
      s.stack = b :: a :: rest →
      b ≠ 0 →
      (internalRun m true t 1 s).stack = Int.fmod a b :: rest ∧
      (internalRun m true t 1 s).currentError = s.currentError) ∧
    (∀ (m : Machine) (s : RunState) (t : Nat) (a b : Int) (rest : List Int),
      s.frames.length ≠ t →
      s.topWhere < m.seglen s.topWhich →
      m.bytecodeAt s.topWhich s.topWhere = CODE_DIVMOD →
      ¬(s.doStack.length ≠ 0 ∧ doAbsDepth s = s.frames.length) →
      s.stack = b :: a :: rest →
      b ≠ 0 →
      (internalRun m true t 1 s).stack = Int.fdiv a b :: Int.fmod a b :: rest) ∧
    (∀ (a b : Int), b ≠ 0 → 0 < b → Int.fmod a b = Int.emod a b ∧ 0 ≤ Int.fmod a b) ∧
    (∀ (a b : Int), b < 0 → Int.fmod a b ≤ 0) ∧
    finalStack "-7 2 mod" = some [1] := by
  refine ⟨?_, ?_, ?_, ?_, by decide⟩
  · intro m s t a b rest hdepth hwh hbc hdo hstack hb
    rw [internalRun_dispatch m true t 0 s hdepth hwh hdo, hbc]
    rw [execInstr]
    simp only [advanceWhere_stack, hstack]
    norm_num [CODE_MOD, CODE_LITERAL, CODE_HALT, CODE_PAUSE, CODE_IF, CODE_IF_ELSE,
      CODE_DO, CODE_DO_STEP, CODE_AGAIN, CODE_UNTIL, CODE_WHILE, CODE_EXIT,
      CODE_PUT, CODE_INC, CODE_GET, CODE_LEN_INPUT, CODE_POS, CODE_END, CODE_SEEK,
      CODE_SKIP, CODE_WRITE, CODE_LEN_OUTPUT, CODE_REWIND, CODE_I, CODE_J, CODE_K,
      CODE_DUP, CODE_DROP, CODE_SWAP, CODE_OVER, CODE_ROT, CODE_NIP, CODE_TUCK,
      CODE_ADD, CODE_SUB, CODE_MUL, CODE_DIV, CODE_DIVMOD, BOUND_DICTIONARY, hb,
      runEpilogue]
    rw [tmod_recenter a b hb]
    constructor <;> split <;> rfl
  · intro m s t a b rest hdepth hwh hbc hdo hstack hb
    rw [internalRun_dispatch m true t 0 s hdepth hwh hdo, hbc]
    rw [execInstr]
    simp only [advanceWhere_stack, hstack]
    norm_num [CODE_DIVMOD, CODE_LITERAL, CODE_HALT, CODE_PAUSE, CODE_IF, CODE_IF_ELSE,
      CODE_DO, CODE_DO_STEP, CODE_AGAIN, CODE_UNTIL, CODE_WHILE, CODE_EXIT,
      CODE_PUT, CODE_INC, CODE_GET, CODE_LEN_INPUT, CODE_POS, CODE_END, CODE_SEEK,
      CODE_SKIP, CODE_WRITE, CODE_LEN_OUTPUT, CODE_REWIND, CODE_I, CODE_J, CODE_K,
      CODE_DUP, CODE_DROP, CODE_SWAP, CODE_OVER, CODE_ROT, CODE_NIP, CODE_TUCK,
      CODE_ADD, CODE_SUB, CODE_MUL, CODE_DIV, CODE_MOD, BOUND_DICTIONARY, hb,
      runEpilogue]
    rw [tmod_recenter a b hb, tdiv_adjust_iff a b hb]
    split <;> rfl
  · intro a b hb hpos
    constructor
    · exact Int.fmod_eq_emod a (by omega)
    · exact Int.fmod_nonneg' a hpos
  · intro a b hneg
    exact (fmod_bounds_neg a b hneg).2

/-- C1 (witness): the amended theorem applied at `a = -7, b = 2` on the
single-instruction `mod` machine. -/
theorem c1_mod_floored_witness :
    (internalRun (opMachine CODE_MOD) true 0 1 (opState [2, -7])).stack = [1] := by
  have h := c1_mod_floored.1 (opMachine CODE_MOD) (opState [2, -7]) 0 (-7) 2 []
    (by decide) (by decide) (by decide) (by decide) rfl (by decide)
  rw [h.1]
  decide

/-! ## C2: `/` and `/mod` compute the floored quotient -/

/-- C2 (confirmed): for every two data-stack cells `a` (below) and `b`
(top) with `b ≠ 0`, executing `/` replaces them with the floored
quotient `Int.fdiv a b` (not the truncated quotient), and `/mod`
produces the same floored quotient; in particular `-7 2 /` leaves `-4`
(`Int.fdiv (-7) 2`), not `-3` (`Int.tdiv (-7) 2`). -/
theorem c2_div_floored :
    (∀ (m : Machine) (s : RunState) (t : Nat) (a b : Int) (rest : List Int),
      s.frames.length ≠ t →
      s.topWhere < m.seglen s.topWhich →
      m.bytecodeAt s.topWhich s.topWhere = CODE_DIV →
      ¬(s.doStack.length ≠ 0 ∧ doAbsDepth s = s.frames.length) →
      s.stack = b :: a :: rest →
      b ≠ 0 →
      (internalRun m true t 1 s).stack = Int.fdiv a b :: rest ∧
      (internalRun m true t 1 s).currentError = s.currentError) ∧
    (∀ (m : Machine) (s : RunState) (t : Nat) (a b : Int) (rest : List Int),
      s.frames.length ≠ t →
      s.topWhere < m.seglen s.topWhich →
      m.bytecodeAt s.topWhich s.topWhere = CODE_DIVMOD →
      ¬(s.doStack.length ≠ 0 ∧ doAbsDepth s = s.frames.length) →
      s.stack = b :: a :: rest →
      b ≠ 0 →
      (internalRun m true t 1 s).stack = Int.fdiv a b :: Int.fmod a b :: rest) ∧
    finalStack "-7 2 /" = some [-4] ∧
    Int.fdiv (-7) 2 = -4 ∧ Int.tdiv (-7) 2 = -3 := by
  refine ⟨?_, c1_mod_floored.2.1, by decide, by decide, by decide⟩
  intro m s t a b rest hdepth hwh hbc hdo hstack hb
  rw [internalRun_dispatch m true t 0 s hdepth hwh hdo, hbc]
  rw [execInstr]
  simp only [advanceWhere_stack, hstack]
  norm_num [CODE_DIV, CODE_LITERAL, CODE_HALT, CODE_PAUSE, CODE_IF, CODE_IF_ELSE,
    CODE_DO, CODE_DO_STEP, CODE_AGAIN, CODE_UNTIL, CODE_WHILE, CODE_EXIT,
    CODE_PUT, CODE_INC, CODE_GET, CODE_LEN_INPUT, CODE_POS, CODE_END, CODE_SEEK,
    CODE_SKIP, CODE_WRITE, CODE_LEN_OUTPUT, CODE_REWIND, CODE_I, CODE_J, CODE_K,
    CODE_DUP, CODE_DROP, CODE_SWAP, CODE_OVER, CODE_ROT, CODE_NIP, CODE_TUCK,
    CODE_ADD, CODE_SUB, CODE_MUL, CODE_MOD, CODE_DIVMOD, BOUND_DICTIONARY, hb,
    runEpilogue]
  rw [tdiv_adjust_iff a b hb]
  constructor <;> split <;> rfl

/-- C2 (witness): the theorem applied at `a = -7, b = 2` on the
single-instruction `/` machine. -/
theorem c2_div_floored_witness :
    (internalRun (opMachine CODE_DIV) true 0 1 (opState [2, -7])).stack = [-4] := by
  have h := c2_div_floored.1 (opMachine CODE_DIV) (opState [2, -7]) 0 (-7) 2 []
    (by decide) (by decide) (by decide) (by decide) rfl (by decide)
  rw [h.1]
  decide

/-! ## C6: division by zero -/

/-- C6 (confirmed): executing `/`, `mod` or `/mod` with at least two
cells on the stack and divisor (top cell) zero latches
`division_by_zero` and stops at that instruction: the engine returns
with the frame still inside the offending instruction and without
counting it as executed. -/
theorem c6_division_by_zero :
    ∀ (m : Machine) (s : RunState) (ss : Bool) (t : Nat) (a : Int)
      (rest : List Int) (op : Int),
      op = CODE_DIV ∨ op = CODE_MOD ∨ op = CODE_DIVMOD →
      s.frames.length ≠ t →
      s.topWhere < m.seglen s.topWhich →
      m.bytecodeAt s.topWhich s.topWhere = op →
      ¬(s.doStack.length ≠ 0 ∧ doAbsDepth s = s.frames.length) →
      s.stack = 0 :: a :: rest →
      (internalRun m ss t 1 s).currentError = ForthError.division_by_zero ∧
      (internalRun m ss t 1 s).frames = (advanceWhere s).frames ∧
      (internalRun m ss t 1 s).countInstructions = s.countInstructions := by
  intro m s ss t a rest op hop hdepth hwh hbc hdo hstack
  rw [internalRun_dispatch m ss t 0 s hdepth hwh hdo, hbc]
  rw [execInstr]
  rcases hop with h | h | h <;> subst h <;>
    simp only [advanceWhere_stack, hstack] <;>
    norm_num [CODE_DIV, CODE_LITERAL, CODE_HALT, CODE_PAUSE, CODE_IF, CODE_IF_ELSE,
      CODE_DO, CODE_DO_STEP, CODE_AGAIN, CODE_UNTIL, CODE_WHILE, CODE_EXIT,
      CODE_PUT, CODE_INC, CODE_GET, CODE_LEN_INPUT, CODE_POS, CODE_END, CODE_SEEK,
      CODE_SKIP, CODE_WRITE, CODE_LEN_OUTPUT, CODE_REWIND, CODE_I, CODE_J, CODE_K,
      CODE_DUP, CODE_DROP, CODE_SWAP, CODE_OVER, CODE_ROT, CODE_NIP, CODE_TUCK,
      CODE_ADD, CODE_SUB, CODE_MUL, CODE_MOD, CODE_DIVMOD, BOUND_DICTIONARY,
      setError, advanceWhere_countInstructions, runEpilogue]

/-- C6 (witness): `5 0 /` on the single-instruction machine latches
`division_by_zero`. -/
theorem c6_division_by_zero_witness :
    (internalRun (opMachine CODE_DIV) false 0 1 (opState [0, 5])).currentError =
      ForthError.division_by_zero := by
  have h := c6_division_by_zero (opMachine CODE_DIV) (opState [0, 5]) false 0 5 []
    CODE_DIV (Or.inl rfl) (by decide) (by decide) (by decide) (by decide) rfl
  exact h.1

/-! ## C5: the effects of `halt` -/

theorem keepBottom_getLast :
    ∀ (l : List Nat) (h : l ≠ []), keepBottom l = [l.getLast h]
  | [_], _ => rfl
  | x :: y :: t, _ => by
    rw [show keepBottom (x :: y :: t) = keepBottom (y :: t) from rfl]
    rw [keepBottom_getLast (y :: t) (by simp)]
    congr 1

/-- C5 (confirmed): whenever the engine dispatches a `halt` instruction,
upon return `current_error = user_halt`, `is_ready = false`, the
recursion stack and the do-loop stack are both empty, and
`recursion_target_depth` retains exactly its bottom (sentinel) entry. -/
theorem c5_halt :
    ∀ (m : Machine) (s : RunState) (ss : Bool) (t fuel : Nat),
      s.frames.length ≠ t →
      s.topWhere < m.seglen s.topWhich →
      m.bytecodeAt s.topWhich s.topWhere = CODE_HALT →
      ¬(s.doStack.length ≠ 0 ∧ doAbsDepth s = s.frames.length) →
      (internalRun m ss t (fuel + 1) s).currentError = ForthError.user_halt ∧
      (internalRun m ss t (fuel + 1) s).isReady = false ∧
      (internalRun m ss t (fuel + 1) s).frames = [] ∧
      (internalRun m ss t (fuel + 1) s).doStack = [] ∧
      (internalRun m ss t (fuel + 1) s).targetDepth = keepBottom s.targetDepth ∧
      ∀ (h : s.targetDepth ≠ []), keepBottom s.targetDepth = [s.targetDepth.getLast h] := by
  intro m s ss t fuel hdepth hwh hbc hdo
  rw [internalRun_dispatch m ss t fuel s hdepth hwh hdo, hbc]
  rw [execInstr]
  norm_num [CODE_HALT, CODE_LITERAL, BOUND_DICTIONARY, runEpilogue,
    advanceWhere_targetDepth]
  exact keepBottom_getLast s.targetDepth

/-- C5 (witness): the theorem applied to the compiled program `halt`
right after `begin`. -/
theorem c5_halt_witness :
    (internalRun (opMachine CODE_HALT) false 0 1 (opState [])).currentError =
      ForthError.user_halt ∧
    (internalRun (opMachine CODE_HALT) false 0 1 (opState [])).targetDepth = [0] := by
  have h := c5_halt (opMachine CODE_HALT) (opState []) false 0 0
    (by decide) (by decide) (by decide) (by decide)
  exact ⟨h.1, by rw [h.2.2.2.2.1]; decide⟩

/-! ## C3: stickiness of runtime errors across `step`/`resume` -/

/-- C3 (counterexample): the claim asserts that after any latched error
`e ≠ none` — `user_halt` included — a later `step()` returns with
`current_error` still `e`.  Running the program `halt` latches
`user_halt`, but the following `step()` reports and latches `not_ready`
instead (the `halt` cleared `is_ready`, and `step`'s guard overwrites
the error). -/
theorem c3_counterexample :
    stepAfterHalt = some (ForthError.user_halt, ForthError.not_ready) ∧
    ForthError.not_ready ≠ ForthError.user_halt := by
  exact ⟨by decide, by decide⟩

/-- C3 (amended): after any latched error `e ≠ none`, a subsequent
`step()` or `resume()` executes no instruction (the instruction counter
and the rest of the state are untouched); the call returns `e` itself
unless the machine is no longer ready — as after `user_halt` — in which
case it reports and latches `not_ready` (or `is_done` when the recursion
stack has emptied). -/
theorem c3_sticky_errors :
    ∀ (m : Machine) (s : RunState) (fuel : Nat),
      s.currentError ≠ ForthError.none →
      step m s fuel =
        (setError s (if !s.is_ready then ForthError.not_ready
                     else if s.is_done then ForthError.is_done
                     else s.currentError),
         if !s.is_ready then ForthError.not_ready
         else if s.is_done then ForthError.is_done
         else s.currentError) ∧
      resume m s fuel =
        (setError s (if !s.is_ready then ForthError.not_ready
                     else if s.is_done then ForthError.is_done
                     else s.currentError),
         if !s.is_ready then ForthError.not_ready
         else if s.is_done then ForthError.is_done
         else s.currentError) ∧
      (step m s fuel).1.countInstructions = s.countInstructions ∧
      (resume m s fuel).1.countInstructions = s.countInstructions := by
  intro m s fuel herr
  have hstep : step m s fuel =
      (setError s (if !s.is_ready then ForthError.not_ready
                   else if s.is_done then ForthError.is_done
                   else s.currentError),
       if !s.is_ready then ForthError.not_ready
       else if s.is_done then ForthError.is_done
       else s.currentError) := by
    rw [step]
    by_cases h1 : s.is_ready
    · by_cases h2 : s.is_done
      · simp [h1, h2, setError]
      · simp [h1, h2, herr, setError]
    · simp [h1, setError]
  have hresume : resume m s fuel =
      (setError s (if !s.is_ready then ForthError.not_ready
                   else if s.is_done then ForthError.is_done
                   else s.currentError),
       if !s.is_ready then ForthError.not_ready
       else if s.is_done then ForthError.is_done
       else s.currentError) := by
    rw [resume]
    by_cases h1 : s.is_ready
    · by_cases h2 : s.is_done
      · simp [h1, h2, setError]
      · simp [h1, h2, herr, setError]
    · simp [h1, setError]
  refine ⟨hstep, hresume, ?_, ?_⟩
  · rw [hstep]; rfl
  · rw [hresume]; rfl


/-- C3 (witness): the amended theorem applied to a ready, mid-program
state with a latched `division_by_zero`: `step` and `resume` return it
unchanged and execute nothing. -/
theorem c3_sticky_errors_witness :
    (step (opMachine CODE_DIV) (setError (opState [5]) ForthError.division_by_zero) 5).2 =
      ForthError.division_by_zero ∧
    (resume (opMachine CODE_DIV) (setError (opState [5]) ForthError.division_by_zero) 5).2 =
      ForthError.division_by_zero := by
  have h := c3_sticky_errors (opMachine CODE_DIV)
    (setError (opState [5]) ForthError.division_by_zero) 5 (by decide)
  exact ⟨by rw [h.1]; decide, by rw [h.2.1]; decide⟩

/-! ## C9: the `do` loop scenario -/

/-- C9 (confirmed): `0 10 0 do i + loop` runs to completion without
error, leaving 45 on the stack (the body executed with `i` ranging over
0..9), and the machine is done. -/
theorem c9_do_loop :
    finalStack "0 10 0 do i + loop" = some [45] ∧
    finalError "0 10 0 do i + loop" = some ForthError.none ∧
    finalIsDone "0 10 0 do i + loop" = some true := by
  exact ⟨by decide, by decide, by decide⟩

/-! ## C8: compile → decompile → recompile -/

/-- C8 (code bug): the program `7` compiles (to `CODE_LITERAL 7`), but
`decompiled()` throws instead of reproducing the source: the positional
decoder sees the literal operand slot 7 (= `CODE_AGAIN`) after
`CODE_LITERAL` and misparses the instruction as a `begin … again` whose
body segment id would be `0 - BOUND_DICTIONARY = -59`, so the round
trip of the claim cannot even start. -/
theorem c8_decompile_bug :
    (compileSource "7").toOption.map Machine.bytecodes = some [CODE_LITERAL, 7] ∧
    decompiledOfSource "7" = some (Except.error DecompErr.segmentOutOfRange) := by
  exact ⟨by decide, by decide⟩

/-! ## C7: `begin` and the inputs map -/

theorem gatherInputs_error_iff (inputs : List (String × ForthInput)) :
    ∀ names, gatherInputs inputs names = Except.error () ↔
      ∃ n ∈ names, inputs.find? (fun p => p.1 = n) = none := by
  intro names
  induction names with
  | nil => simp [gatherInputs]
  | cons n rest ih =>
    rw [gatherInputs]
    cases hf : inputs.find? (fun p => p.1 = n) with
    | none =>
      simp only [hf]
      constructor
      · intro _
        exact ⟨n, by simp, hf⟩
      · intro _
        trivial
    | some p =>
      cases hg : gatherInputs inputs rest with
      | error e =>
        cases e
        simp only [hf, hg]
        constructor
        · intro _
          obtain ⟨n2, hn2, hfind⟩ := ih.mp hg
          exact ⟨n2, by simp [hn2], hfind⟩
        · intro _
          trivial
      | ok l =>
        simp only [hf, hg]
        constructor
        · intro h
          exact absurd h (by simp)
        · intro ⟨n2, hn2, hfind⟩
          rcases List.mem_cons.mp hn2 with h | h
          · subst h
            rw [hf] at hfind
            exact absurd hfind (by simp)
          · exact absurd hg (by rw [ih.mpr ⟨n2, h, hfind⟩]; simp)

/-- C7 (confirmed): `begin(inputs)` fails — by throwing, with the
runtime-error enum left at `none` by the preceding `reset` — exactly
when some declared input name is absent from the map; extra entries are
ignored (success depends only on thepresence of the declared names, and
the bound buffers are the looked-up ones in declaration order).  On
success the machine holds one freshly allocated (empty) output buffer
per declared output with its declared dtype, the sentinel target depth 0
and the top-level segment frame are pushed, and `is_ready` is true with
no error latched. -/
theorem c7_begin :
    ∀ (m : Machine) (s : RunState) (inputs : List (String × ForthInput)),
      (begin m s inputs = Except.error () ↔
        ∃ n ∈ m.inputNames, inputs.find? (fun p => p.1 = n) = none) ∧
      (reset m s).currentError = ForthError.none ∧
      (∀ s2, begin m s inputs = Except.ok s2 →
        gatherInputs inputs m.inputNames = Except.ok s2.currentInputs ∧
        s2.currentOutputs.map OutputBuffer.dtype = m.outputDtypes ∧
        s2.currentOutputs.map OutputBuffer.data = m.outputDtypes.map (fun _ => []) ∧
        s2.targetDepth = [0] ∧
        s2.frames = [(0, 0)] ∧
        s2.isReady = true ∧
        s2.currentError = ForthError.none) := by
  intro m s inputs
  refine ⟨?_, rfl, ?_⟩
  · rw [AwkwardForth.begin]
    cases hg : gatherInputs inputs m.inputNames with
    | error e =>
      cases e
      constructor
      · intro _
        exact (gatherInputs_error_iff inputs m.inputNames).mp hg
      · intro _
        rfl
    | ok l =>
      constructor
      · intro h
        exact absurd h (by simp)
      · intro hex
        rw [(gatherInputs_error_iff inputs m.inputNames).mpr hex] at hg
        exact absurd hg (by simp)
  · intro s2 hok
    rw [AwkwardForth.begin] at hok
    cases hg : gatherInputs inputs m.inputNames with
    | error e =>
      rw [hg] at hok
      exact absurd hok (by simp)
    | ok l =>
      rw [hg] at hok
      injection hok with h2
      subst h2
      refine ⟨rfl, ?_, ?_, rfl, rfl, rfl, rfl⟩ <;>
        simp [pushFrame, List.map_map, Function.comp_def]

/-- A small concrete machine for exercising `begin`: one input `x`, one
`int32` output `o`, no code. -/
def c7Machine : Machine :=
  { bytecodes := [], offsets := [0, 0], variableNames := [],
    inputNames := ["x"], outputNames := ["o"],
    outputDtypes := [Dtype.int32], dictionaryNames := [],
    dictionaryBytecodes := [], stackMaxDepth := 8,
    recursionMaxDepth := 8 }

/-- C7 (witness): on a machine declaring input `x` and output `o int32`,
`begin` with only an undeclared name fails, while `begin` with `x`
present plus an extra undeclared entry succeeds, allocating the declared
`int32` output and marking the machine ready. -/
theorem c7_begin_witness :
    begin c7Machine (opState []) [("extra", ⟨[], 0⟩)] = Except.error () ∧
    ∃ s2, begin c7Machine (opState [])
        [("x", ⟨[7], 0⟩), ("extra", ⟨[], 0⟩)] = Except.ok s2 ∧
      s2.currentOutputs.map OutputBuffer.dtype = [Dtype.int32] ∧
      s2.isReady = true := by
  constructor
  · exact (c7_begin c7Machine (opState []) [("extra", ⟨[], 0⟩)]).1.mpr
      ⟨"x", by decide, by decide⟩
  · cases hb : begin c7Machine (opState [])
        [("x", ⟨[7], 0⟩), ("extra", ⟨[], 0⟩)] with
    | error e =>
      cases e
      have hmiss := (c7_begin c7Machine (opState [])
        [("x", ⟨[7], 0⟩), ("extra", ⟨[], 0⟩)]).1.mp hb
      exact absurd hmiss (by decide)
    | ok s2 =>
      obtain ⟨-, hdt, -, -, -, hready, -⟩ := (c7_begin c7Machine (opState [])
        [("x", ⟨[7], 0⟩), ("extra", ⟨[], 0⟩)]).2.2 s2 hb
      exact ⟨s2, rfl, hdt, hready⟩

theorem stoulDigits_snd_true (isDig : Char → Bool) (val : Char → Nat) (base : Nat) :
    ∀ (l : List Char) (acc : Nat), (stoulDigits isDig val base l acc true).2 = true := by
  intro l
  induction l with
  | nil => intro acc; rfl
  | cons c rest ih =>
    intro acc
    rw [stoulDigits]
    split
    · exact ih _
    · rfl

theorem digit_head_not_special (c : Char) (h : isDigit10 c = true) :
    isSpaceChar c = false ∧ c ≠ '-' ∧ c ≠ '+' := by
  simp only [isDigit10, Bool.and_eq_true, decide_eq_true_eq] at h
  obtain ⟨h1, h2⟩ := h
  refine ⟨?_, ?_, ?_⟩
  · simp only [isSpaceChar, Bool.or_eq_false_iff, decide_eq_false_iff_not]
    refine ⟨⟨⟨⟨⟨?_, ?_⟩, ?_⟩, ?_⟩, ?_⟩, ?_⟩ <;> rintro rfl <;> revert h1 <;> decide
  · rintro rfl; revert h1; decide
  · rintro rfl; revert h1; decide

theorem stoulSign_skip (c : Char) (cs : List Char) (hminus : c ≠ '-') (hplus : c ≠ '+') :
    stoulSign (c :: cs) = (false, c :: cs) := by
  rw [stoulSign]
  · intro rest heq
    exact absurd (List.head_eq_of_cons_eq heq) hminus
  · intro rest heq
    exact absurd (List.head_eq_of_cons_eq heq) hplus

theorem stoul_of_digit_head (w : String) (c : Char) (cs : List Char)
    (hdata : w.data = c :: cs) (hc : isDigit10 c = true)
    (hlt : decimalPrefixVal w < 2 ^ 64) :
    stoul w 10 = Except.ok (decimalPrefixVal w) := by
  obtain ⟨hsp, hminus, hplus⟩ := digit_head_not_special c hc
  have hany : (stoulDigits isDigit10 digitVal10 10 (c :: cs) 0 false).2 = true := by
    rw [stoulDigits]
    simp only [hc, if_true, reduceIte]
    exact stoulDigits_snd_true _ _ _ _ _
  rw [stoul, decimalPrefixVal]
  rw [decimalPrefixVal, hdata] at hlt
  rw [hdata]
  simp only [List.dropWhile_cons, hsp, Bool.false_eq_true, if_false,
    stoulSign_skip c cs hminus hplus]
  norm_num at hlt
  norm_num [hany]
  intro h
  exact absurd h (by omega)


theorem is_integer_of_digit_head (w : String) (c : Char) (cs : List Char)
    (hdata : w.data = c :: cs) (hc : isDigit10 c = true)
    (hnx : ¬(w.length ≥ 2 ∧ w.take 2 = "0x"))
    (hlt : decimalPrefixVal w < 2 ^ 64) :
    is_integer w = Except.ok (some (toInt64 (decimalPrefixVal w))) := by
  rw [is_integer, if_neg (by simpa using hnx), stoul_of_digit_head w c cs hdata hc hlt]

/-- C10: on a single non-dispatch, non-builtin token the compiler emits
`CODE_LITERAL` exactly when `is_integer` succeeds, with the `int32`-cast
value; and `is_integer` succeeds on every token whose head is a decimal
digit, provided the token does not begin with `0x` and its digit prefix
fits, yielding the value of the longest decimal-digit prefix. -/
theorem c10_literal_fallback (w : String) (smax rmax fuel : Nat)
    (hw : w ∉ parseDispatchWords)
    (hb : w ∉ genericBuiltinWords.map Prod.fst) :
    (compile [w] smax rmax (fuel + 2) =
      match is_integer w with
      | Except.ok (some num) =>
          Except.ok { bytecodes := [CODE_LITERAL, toInt32 num], offsets := [0, 2],
                      variableNames := [], inputNames := [], outputNames := [],
                      outputDtypes := [], dictionaryNames := [], dictionaryBytecodes := [],
                      stackMaxDepth := smax, recursionMaxDepth := rmax }
      | Except.ok none => Except.error CompileErr.unrecognizedWord
      | Except.error _ => Except.error CompileErr.integerOverflow) ∧
    (∀ (c : Char) (cs : List Char), w.data = c :: cs → isDigit10 c = true →
      ¬(w.length ≥ 2 ∧ w.take 2 = "0x") → decimalPrefixVal w < 2 ^ 64 →
      is_integer w = Except.ok (some (toInt64 (decimalPrefixVal w)))) := by
  constructor
  · simp only [parseDispatchWords, List.mem_cons, List.not_mem_nil, or_false, not_or] at hw
    obtain ⟨h1, h2, h3, h4, h5, h6, h7, h8, h9, h10, h11, h12, h13, h14, h15⟩ := hw
    have hfb : genericBuiltinWords.filter (fun p => decide (p.1 = w)) = [] := by
      rw [List.filter_eq_nil_iff]
      intro p hp hpw
      exact hb (by
        simp only [decide_eq_true_eq] at hpw
        exact hpw ▸ List.mem_map_of_mem Prod.fst hp)
    have hfuel : fuel + 2 = (fuel + 1) + 1 := rfl
    rw [compile, hfuel, parse]
    norm_num [h1, h2, h3, h4, h5, h6, h7, h8, h9, h10, h11, h12, h13, h14, h15,
      List.getD, emptyCompilerState, CompilerState.is_variable, CompilerState.is_input,
      CompilerState.is_output, hfb, List.zip_nil_left, List.filter_nil, List.head?_nil]
    cases hi : is_integer w with
    | error e => rfl
    | ok o =>
      cases o with
      | none => rfl
      | some num =>
        norm_num
        rw [parse]
        norm_num [List.set_cons_zero, flattenOffsets, flattenOffsetsFrom,
          List.flatten_cons, List.flatten_nil, List.append_nil]
  · intro c cs hdata hc hnx hlt
    exact is_integer_of_digit_head w c cs hdata hc hnx hlt

/-- C10 (witness): the token `3.14` is neither a dispatch word nor a
builtin; the one-token program compiles to `CODE_LITERAL 3`, the value of
its decimal-digit prefix. -/
theorem c10_literal_fallback_witness :
    "3.14" ∉ parseDispatchWords ∧
    "3.14" ∉ genericBuiltinWords.map Prod.fst ∧
    compile ["3.14"] 8 8 (0 + 2) =
      Except.ok { bytecodes := [CODE_LITERAL, 3], offsets := [0, 2],
                  variableNames := [], inputNames := [], outputNames := [],
                  outputDtypes := [], dictionaryNames := [], dictionaryBytecodes := [],
                  stackMaxDepth := 8, recursionMaxDepth := 8 } ∧
    is_integer "3.14" = Except.ok (some 3) := by
  have h := c10_literal_fallback "3.14" 8 8 0 (by decide) (by decide)
  refine ⟨by decide, by decide, ?_, ?_⟩
  · rw [h.1]
    decide
  · exact (h.2 '3' ".14".data (by decide) (by decide) (by decide) (by decide)).trans
      (by decide)

/-- C10 (counterexample): the token `0x` begins with the decimal digit
`0`, is neither a dispatch word nor a builtin, yet compiling it raises
the unrecognized-word error instead of producing a literal: `is_integer`
routes it to the base-16 branch, where `std::stoul` finds no digits. -/
theorem c10_counterexample :
    "0x".data.head? = some '0' ∧ isDigit10 '0' = true ∧
    "0x" ∉ parseDispatchWords ∧ "0x" ∉ genericBuiltinWords.map Prod.fst ∧
    compileSource "0x" = Except.error CompileErr.unrecognizedWord := by
  decide

theorem flattenOffsetsFrom_chain (segs : List (List Int)) :
    ∀ base : Nat, List.Chain' (· ≤ ·) (base :: flattenOffsetsFrom base segs) := by
  induction segs with
  | nil => intro base; simp [flattenOffsetsFrom]
  | cons seg rest ih =>
    intro base
    rw [flattenOffsetsFrom]
    exact List.Chain'.cons (by omega) (ih (base + seg.length))

theorem flattenOffsetsFrom_getLastD (segs : List (List Int)) :
    ∀ base : Nat, (flattenOffsetsFrom base segs).getLastD base
      = base + segs.flatten.length := by
  induction segs with
  | nil => intro base; simp [flattenOffsetsFrom]
  | cons seg rest ih =>
    intro base
    rw [flattenOffsetsFrom, List.getLastD_cons, ih (base + seg.length)]
    simp [List.flatten_cons]
    omega

theorem flattenOffsetsFrom_length (segs : List (List Int)) :
    ∀ base : Nat, (flattenOffsetsFrom base segs).length = segs.length := by
  induction segs with
  | nil => intro base; rfl
  | cons seg rest ih =>
    intro base
    rw [flattenOffsetsFrom, List.length_cons, ih (base + seg.length), List.length_cons]

theorem RefsOK_mono (n m : Nat) (l : List Int) (hnm : n ≤ m) (h : RefsOK n l) :
    RefsOK m l := by
  induction h with
  | nil => exact .nil
  | io2 v x rest hv _ ih => exact .io2 v x rest hv ih
  | io3 v x y rest hv _ ih => exact .io3 v x y rest hv ih
  | literal x rest _ ih => exact .literal x rest ih
  | exit_ x rest _ ih => exact .exit_ x rest ih
  | single v rest hv _ ih => exact .single v rest hv ih
  | op2 v x rest hv1 hv2 _ ih => exact .op2 v x rest hv1 hv2 ih
  | if_ r rest h1 h2 _ ih => exact .if_ r rest h1 (by omega) ih
  | ifElse r1 r2 rest h1 h2 h3 h4 _ ih =>
    exact .ifElse r1 r2 rest h1 (by omega) h3 (by omega) ih
  | doLoop c r rest hc h1 h2 _ ih => exact .doLoop c r rest hc h1 (by omega) ih
  | beginLoop r c rest hc h1 h2 _ ih => exact .beginLoop r c rest hc h1 (by omega) ih
  | whileLoop r1 r2 rest h1 h2 h3 h4 _ ih =>
    exact .whileLoop r1 r2 rest h1 (by omega) h3 (by omega) ih
  | call v rest h1 h2 _ ih => exact .call v rest h1 (by omega) ih

theorem RefsOK_append (n : Nat) (l1 l2 : List Int)
    (h1 : RefsOK n l1) (h2 : RefsOK n l2) : RefsOK n (l1 ++ l2) := by
  induction h1 with
  | nil => exact h2
  | io2 v x rest hv _ ih => exact .io2 v x _ hv ih
  | io3 v x y rest hv _ ih => exact .io3 v x y _ hv ih
  | literal x rest _ ih => exact .literal x _ ih
  | exit_ x rest _ ih => exact .exit_ x _ ih
  | single v rest hv _ ih => exact .single v _ hv ih
  | op2 v x rest hv1 hv2 _ ih => exact .op2 v x _ hv1 hv2 ih
  | if_ r rest ha hb _ ih => exact .if_ r _ ha hb ih
  | ifElse r1 r2 rest ha hb hc hd _ ih => exact .ifElse r1 r2 _ ha hb hc hd ih
  | doLoop c r rest hc ha hb _ ih => exact .doLoop c r _ hc ha hb ih
  | beginLoop r c rest hc ha hb _ ih => exact .beginLoop r c _ hc ha hb ih
  | whileLoop r1 r2 rest ha hb hc hd _ ih => exact .whileLoop r1 r2 _ ha hb hc hd ih
  | call v rest ha hb _ ih => exact .call v _ ha hb ih

theorem RefsOK_calls (n : Nat) (l : List Int)
    (h : ∀ b ∈ l, BOUND_DICTIONARY ≤ b ∧ b < BOUND_DICTIONARY + n) : RefsOK n l := by
  induction l with
  | nil => exact .nil
  | cons b rest ih =>
    obtain ⟨h1, h2⟩ := h b (List.mem_cons_self b rest)
    exact .call b rest h1 h2 (ih (fun x hx => h x (List.mem_cons_of_mem b hx)))

theorem builtin_range : ∀ p ∈ genericBuiltinWords, CODE_I ≤ p.2 ∧ p.2 ≤ CODE_TRUE := by
  decide

/-- The dictionary-segment invariant threaded through `parse`: every
segment compiled so far references only existing segment slots. -/
def DictOK (st : CompilerState) : Prop :=
  ∀ seg ∈ st.dictionary, RefsOK st.dictionary.length seg

/-- The word-table invariant: every call bytecode registered for a `:`
definition points at an existing segment slot. -/
def DictBytesOK (st : CompilerState) : Prop :=
  ∀ b ∈ st.dictionaryBytecodes,
    BOUND_DICTIONARY ≤ b ∧ b < BOUND_DICTIONARY + (st.dictionary.length : Int)

theorem dictOK_push (d : List (List Int))
    (h : ∀ seg ∈ d, RefsOK d.length seg) :
    ∀ seg ∈ d ++ [[]], RefsOK (d ++ [[]]).length seg := by
  intro seg hseg
  rcases List.mem_append.mp hseg with h1 | h1
  · exact RefsOK_mono _ _ _ (by simp) (h seg h1)
  · rw [List.mem_singleton.mp h1]
    exact .nil

theorem dictOK_set (d : List (List Int)) (i : Nat) (body : List Int)
    (h : ∀ seg ∈ d, RefsOK d.length seg) (hb : RefsOK d.length body) :
    ∀ seg ∈ d.set i body, RefsOK (d.set i body).length seg := by
  intro seg hseg
  rw [List.length_set]
  rcases List.mem_or_eq_of_mem_set hseg with h1 | h1
  · exact h seg h1
  · rw [h1]; exact hb

theorem dbOK_grow (bytes : List Int) (n m : Nat) (hnm : n ≤ m)
    (h : ∀ b ∈ bytes, BOUND_DICTIONARY ≤ b ∧ b < BOUND_DICTIONARY + (n : Int)) :
    ∀ b ∈ bytes, BOUND_DICTIONARY ≤ b ∧ b < BOUND_DICTIONARY + (m : Int) := by
  intro b hb
  obtain ⟨h1, h2⟩ := h b hb
  refine ⟨h1, ?_⟩
  have : (n : Int) ≤ (m : Int) := by exact_mod_cast hnm
  omega

set_option maxHeartbeats 4000000 in
theorem parse_refs (fuel : Nat) :
    ∀ (defnName : String) (toks : List String) (pos stop : Nat)
      (bytecodes : List Int) (st : CompilerState) (exitdepth dodepth : Nat)
      (bc' : List Int) (st' : CompilerState),
      parse defnName toks pos stop bytecodes st exitdepth dodepth fuel
        = Except.ok (bc', st') →
      RefsOK st.dictionary.length bytecodes →
      DictOK st → DictBytesOK st →
      st.dictionary.length ≤ st'.dictionary.length ∧
      RefsOK st'.dictionary.length bc' ∧ DictOK st' ∧ DictBytesOK st' := by
  induction fuel with
  | zero =>
    intro d toks pos stop bytecodes st ed dd bc' st' h hbc hdict hdb
    rw [parse] at h
    exact Except.noConfusion h
  | succ fuel ih =>
    intro d toks pos stop bytecodes st ed dd bc' st' h hbc hdict hdb
    rw [parse] at h
    by_cases c0 : pos ≥ stop
    · rw [if_pos c0] at h
      injection h with h1
      injection h1 with h2 h3
      subst h2; subst h3
      exact ⟨le_refl _, hbc, hdict, hdb⟩
    · rw [if_neg c0] at h
      by_cases c1 : toks.getD pos "" = "("
      · simp only [c1, reduceIte] at h
        cases hscan : scanParen toks stop pos 1 (stop + 1) with
        | none => rw [hscan] at h; exact Except.noConfusion h
        | some substop =>
          rw [hscan] at h
          simp only [] at h
          exact ih _ _ _ _ _ _ _ _ _ _ h hbc hdict hdb
      · simp only [c1, reduceIte] at h
        by_cases c2 : toks.getD pos "" = "\\"
        · simp only [c2, reduceIte] at h
          exact ih _ _ _ _ _ _ _ _ _ _ h hbc hdict hdb
        · simp only [c2, reduceIte] at h
          by_cases c3 : toks.getD pos "" = "\n"
          · simp only [c3, reduceIte] at h
            exact ih _ _ _ _ _ _ _ _ _ _ h hbc hdict hdb
          · simp only [c3, reduceIte] at h
            by_cases c4 : toks.getD pos "" = ""
            · simp only [c4, reduceIte] at h
              exact ih _ _ _ _ _ _ _ _ _ _ h hbc hdict hdb
            · simp only [c4, reduceIte] at h
              by_cases c5 : toks.getD pos "" = ":"
              · simp only [c5, reduceIte] at h
                by_cases cg : (decide (pos + 1 ≥ stop)
                    || decide (toks.getD (pos + 1) "" = ";")) = true
                · rw [if_pos cg] at h; exact Except.noConfusion h
                · rw [if_neg cg] at h
                  cases hnt : nameIsTaken st (toks.getD (pos + 1) "") with
                  | error e => rw [hnt] at h; simp only [] at h; exact Except.noConfusion h
                  | ok b =>
                    rw [hnt] at h
                    cases b with
                    | true => simp only [] at h; exact Except.noConfusion h
                    | false =>
                      simp only [] at h
                      cases hscan : scanSemicolon toks stop (pos + 1) 1 (stop + 1) with
                      | none => rw [hscan] at h; simp only [] at h; exact Except.noConfusion h
                      | some substop =>
                        rw [hscan] at h
                        simp only [] at h
                        split at h
                        · exact Except.noConfusion h
                        · rename_i body st2 hbody
                          obtain ⟨l1, rbody, d2, db2⟩ := ih _ _ _ _ _ _ _ _ _ _ hbody
                            RefsOK.nil (dictOK_push _ hdict)
                            (by
                              intro b hb
                              simp only [List.length_append, List.length_cons,
                                List.length_nil]
                              rcases List.mem_append.mp hb with h1 | h1
                              · obtain ⟨ha, hb2⟩ := hdb b h1
                                exact ⟨ha, by push_cast at *; omega⟩
                              · rw [List.mem_singleton.mp h1]
                                constructor <;> push_cast <;> omega)
                          have hlen1 : st.dictionary.length + 1 ≤ st2.dictionary.length := by
                            simpa using l1
                          obtain ⟨l2, rb2, d3, db3⟩ := ih _ _ _ _ _ _ _ _ _ _ h
                            (by rw [List.length_set]; exact RefsOK_mono _ _ _ (by omega) hbc)
                            (dictOK_set _ _ _ d2 rbody)
                            (by intro b hb; rw [List.length_set]; exact db2 b hb)
                          refine ⟨?_, rb2, d3, db3⟩
                          simp only [List.length_set] at l2
                          omega
              · simp only [c5, reduceIte] at h
                by_cases c6 : toks.getD pos "" = "recurse"
                · simp only [c6, reduceIte] at h
                  by_cases cr : d = ""
                  · rw [if_pos cr] at h; exact Except.noConfusion h
                  · rw [if_neg cr] at h
                    refine ih _ _ _ _ _ _ _ _ _ _ h
                      (RefsOK_append _ _ _ hbc (RefsOK_calls _ _ ?_)) hdict hdb
                    intro b hbm
                    simp only [List.mem_map] at hbm
                    obtain ⟨p, hpmem, rfl⟩ := hbm
                    exact hdb p.2 (List.of_mem_zip (List.mem_filter.mp hpmem).1).2
                · simp only [c6, reduceIte] at h
                  by_cases c7 : toks.getD pos "" = "variable"
                  · simp only [c7, reduceIte] at h
                    by_cases cd : pos + 1 ≥ stop
                    · rw [if_pos cd] at h; exact Except.noConfusion h
                    · rw [if_neg cd] at h
                      cases hnt : nameIsTaken st (toks.getD (pos + 1) "") with
                      | error e =>
                        rw [hnt] at h; simp only [] at h; exact Except.noConfusion h
                      | ok b =>
                        rw [hnt] at h
                        cases b with
                        | true => simp only [] at h; exact Except.noConfusion h
                        | false =>
                          simp only [] at h
                          exact ih _ _ _ _ _
                            { st with variableNames :=
                                st.variableNames ++ [toks.getD (pos + 1) ""] }
                            _ _ _ _ h hbc hdict hdb
                  · simp only [c7, reduceIte] at h
                    by_cases c8 : toks.getD pos "" = "input"
                    · simp only [c8, reduceIte] at h
                      by_cases cd : pos + 1 ≥ stop
                      · rw [if_pos cd] at h; exact Except.noConfusion h
                      · rw [if_neg cd] at h
                        cases hnt : nameIsTaken st (toks.getD (pos + 1) "") with
                        | error e =>
                          rw [hnt] at h; simp only [] at h; exact Except.noConfusion h
                        | ok b =>
                          rw [hnt] at h
                          cases b with
                          | true => simp only [] at h; exact Except.noConfusion h
                          | false =>
                            simp only [] at h
                            exact ih _ _ _ _ _
                              { st with inputNames :=
                                  st.inputNames ++ [toks.getD (pos + 1) ""] }
                              _ _ _ _ h hbc hdict hdb
                    · simp only [c8, reduceIte] at h
                      by_cases c9 : toks.getD pos "" = "output"
                      · simp only [c9, reduceIte] at h
                        by_cases cd : pos + 2 ≥ stop
                        · rw [if_pos cd] at h; exact Except.noConfusion h
                        · rw [if_neg cd] at h
                          cases hnt : nameIsTaken st (toks.getD (pos + 1) "") with
                          | error e =>
                            rw [hnt] at h; simp only [] at h; exact Except.noConfusion h
                          | ok b =>
                            rw [hnt] at h
                            cases b with
                            | true => simp only [] at h; exact Except.noConfusion h
                            | false =>
                              simp only [] at h
                              cases hdt : (outputDtypeWords.filter
                                  (fun p => p.1 = toks.getD (pos + 2) "")).head? with
                              | none =>
                                rw [hdt] at h; simp only [] at h; exact Except.noConfusion h
                              | some pair =>
                                rw [hdt] at h
                                simp only [] at h
                                exact ih _ _ _ _ _
                                  { st with
                                    outputNames :=
                                      st.outputNames ++ [toks.getD (pos + 1) ""]
                                    outputDtypes := st.outputDtypes ++ [pair.2] }
                                  _ _ _ _ h hbc hdict hdb
                      · simp only [c9, reduceIte] at h
                        by_cases c10 : toks.getD pos "" = "halt"
                        · simp only [c10, reduceIte] at h
                          exact ih _ _ _ _ _ _ _ _ _ _ h
                            (RefsOK_append _ _ _ hbc
                              (RefsOK.single _ _ (Or.inl rfl) RefsOK.nil)) hdict hdb
                        · simp only [c10, reduceIte] at h
                          by_cases c11 : toks.getD pos "" = "pause"
                          · simp only [c11, reduceIte] at h
                            exact ih _ _ _ _ _ _ _ _ _ _ h
                              (RefsOK_append _ _ _ hbc
                                (RefsOK.single _ _ (Or.inr (Or.inl rfl)) RefsOK.nil)) hdict hdb
                          · simp only [c11, reduceIte] at h
                            by_cases c12 : toks.getD pos "" = "if"
                            · simp only [c12, reduceIte] at h
                              cases hscan : scanThen toks stop pos 1 none (stop + 1) with
                              | none =>
                                rw [hscan] at h; simp only [] at h
                                exact Except.noConfusion h
                              | some p =>
                                rw [hscan] at h
                                obtain ⟨substop, subelse⟩ := p
                                simp only [] at h
                                cases subelse with
                                | none =>
                                  simp only [] at h
                                  split at h
                                  · exact Except.noConfusion h
                                  · rename_i consequent st2 hbody
                                    obtain ⟨l1, rbody, d2, db2⟩ :=
                                      ih _ _ _ _ _ _ _ _ _ _ hbody RefsOK.nil
                                        (dictOK_push _ hdict)
                                        (by
                                          intro b hb
                                          obtain ⟨ha, hb2⟩ := hdb b hb
                                          refine ⟨ha, ?_⟩
                                          simp only [List.length_append, List.length_cons,
                                            List.length_nil]
                                          push_cast at *
                                          omega)
                                    have hlen1 : st.dictionary.length + 1
                                        ≤ st2.dictionary.length := by simpa using l1
                                    obtain ⟨l2, rb2, d3, db3⟩ := ih _ _ _ _ _ _ _ _ _ _ h
                                      (by
                                        simp only [List.length_set]
                                        refine RefsOK_append _ _ _
                                          (RefsOK_mono _ _ _ (by omega) hbc) ?_
                                        exact RefsOK.if_ _ _ (by omega)
                                          (by omega) RefsOK.nil)
                                      (dictOK_set _ _ _ d2 rbody)
                                      (by
                                        intro b hb
                                        simp only [List.length_set]
                                        exact db2 b hb)
                                    refine ⟨?_, rb2, d3, db3⟩
                                    simp only [List.length_set] at l2
                                    omega
                                | some subelsePos =>
                                  simp only [] at h
                                  split at h
                                  · exact Except.noConfusion h
                                  · rename_i consequent st2 hbody1
                                    split at h
                                    · exact Except.noConfusion h
                                    · rename_i alternate st5 hbody2
                                      obtain ⟨l1, rcons, d2, db2⟩ :=
                                        ih _ _ _ _ _ _ _ _ _ _ hbody1 RefsOK.nil
                                          (dictOK_push _ hdict)
                                          (by
                                            intro b hb
                                            obtain ⟨ha, hb2⟩ := hdb b hb
                                            refine ⟨ha, ?_⟩
                                            simp only [List.length_append, List.length_cons,
                                              List.length_nil]
                                            push_cast at *
                                            omega)
                                      have hlen1 : st.dictionary.length + 1
                                          ≤ st2.dictionary.length := by simpa using l1
                                      obtain ⟨l2, ralt, d5, db5⟩ :=
                                        ih _ _ _ _ _ _ _ _ _ _ hbody2 RefsOK.nil
                                          (by
                                            refine dictOK_push _ ?_
                                            exact dictOK_set _ _ _ d2 rcons)
                                          (by
                                            intro b hb
                                            obtain ⟨ha, hb2⟩ := db2 b hb
                                            refine ⟨ha, ?_⟩
                                            simp only [List.length_append, List.length_cons,
                                              List.length_nil, List.length_set] at *
                                            push_cast at *
                                            omega)
                                      have hlen2 : st2.dictionary.length + 1
                                          ≤ st5.dictionary.length := by
                                        simpa [List.length_set] using l2
                                      obtain ⟨l3, rb3, d6, db6⟩ := ih _ _ _ _ _ _ _ _ _ _ h
                                        (by
                                          simp only [List.length_set]
                                          refine RefsOK_append _ _ _
                                            (RefsOK_mono _ _ _ (by omega) hbc) ?_
                                          exact RefsOK.ifElse _ _ _ (by omega)
                                            (by omega)
                                            (by omega)
                                            (by omega)
                                            RefsOK.nil)
                                        (dictOK_set _ _ _ d5 ralt)
                                        (by
                                          intro b hb
                                          simp only [List.length_set]
                                          exact db5 b hb)
                                      refine ⟨?_, rb3, d6, db6⟩
                                      simp only [List.length_set] at l3
                                      omega
                            · simp only [c12, reduceIte] at h
                              by_cases c13 : toks.getD pos "" = "do"
                              · simp only [c13, reduceIte] at h
                                cases hscan : scanLoop toks stop pos 1 false (stop + 1) with
                                | none =>
                                  rw [hscan] at h; simp only [] at h
                                  exact Except.noConfusion h
                                | some p =>
                                  rw [hscan] at h
                                  obtain ⟨substop, isStep⟩ := p
                                  simp only [] at h
                                  split at h
                                  · exact Except.noConfusion h
                                  · rename_i body st2 hbody
                                    obtain ⟨l1, rbody, d2, db2⟩ :=
                                      ih _ _ _ _ _ _ _ _ _ _ hbody RefsOK.nil
                                        (dictOK_push _ hdict)
                                        (by
                                          intro b hb
                                          obtain ⟨ha, hb2⟩ := hdb b hb
                                          refine ⟨ha, ?_⟩
                                          simp only [List.length_append, List.length_cons,
                                            List.length_nil]
                                          omega)
                                    have hlen1 : st.dictionary.length + 1
                                        ≤ st2.dictionary.length := by simpa using l1
                                    obtain ⟨l2, rb2, d3, db3⟩ := ih _ _ _ _ _ _ _ _ _ _ h
                                      (by
                                        simp only [List.length_set]
                                        refine RefsOK_append _ _ _
                                          (RefsOK_mono _ _ _ (by omega) hbc) ?_
                                        exact RefsOK.doLoop _ _ _
                                          (by cases isStep <;> simp)
                                          (by omega) (by omega) RefsOK.nil)
                                      (dictOK_set _ _ _ d2 rbody)
                                      (by
                                        intro b hb
                                        simp only [List.length_set]
                                        exact db2 b hb)
                                    refine ⟨?_, rb2, d3, db3⟩
                                    simp only [List.length_set] at l2
                                    omega
                              · simp only [c13, reduceIte] at h
                                by_cases c14 : toks.getD pos "" = "begin"
                                · simp only [c14, reduceIte] at h
                                  cases hscan : scanBeginEnd toks stop pos 1 false none
                                      (stop + 1) with
                                  | none =>
                                    rw [hscan] at h; simp only [] at h
                                    exact Except.noConfusion h
                                  | some p =>
                                    rw [hscan] at h
                                    obtain ⟨substop, isAgain, subwhile⟩ := p
                                    simp only [] at h
                                    cases isAgain with
                                    | true =>
                                      simp only [reduceIte] at h
                                      split at h
                                      · exact Except.noConfusion h
                                      · rename_i body st2 hbody
                                        obtain ⟨l1, rbody, d2, db2⟩ :=
                                          ih _ _ _ _ _ _ _ _ _ _ hbody RefsOK.nil
                                            (dictOK_push _ hdict)
                                            (by
                                              intro b hb
                                              obtain ⟨ha, hb2⟩ := hdb b hb
                                              refine ⟨ha, ?_⟩
                                              simp only [List.length_append, List.length_cons,
                                                List.length_nil]
                                              omega)
                                        have hlen1 : st.dictionary.length + 1
                                            ≤ st2.dictionary.length := by simpa using l1
                                        obtain ⟨l2, rb2, d3, db3⟩ := ih _ _ _ _ _ _ _ _ _ _ h
                                          (by
                                            simp only [List.length_set]
                                            refine RefsOK_append _ _ _
                                              (RefsOK_mono _ _ _ (by omega) hbc) ?_
                                            exact RefsOK.beginLoop _ _ _ (Or.inl rfl)
                                              (by omega) (by omega) RefsOK.nil)
                                          (dictOK_set _ _ _ d2 rbody)
                                          (by
                                            intro b hb
                                            simp only [List.length_set]
                                            exact db2 b hb)
                                        refine ⟨?_, rb2, d3, db3⟩
                                        simp only [List.length_set] at l2
                                        omega
                                    | false =>
                                      rw [if_neg (by decide : ¬(false = true))] at h
                                      cases subwhile with
                                      | none =>
                                        simp only [] at h
                                        split at h
                                        · exact Except.noConfusion h
                                        · rename_i body st2 hbody
                                          obtain ⟨l1, rbody, d2, db2⟩ :=
                                            ih _ _ _ _ _ _ _ _ _ _ hbody RefsOK.nil
                                              (dictOK_push _ hdict)
                                              (by
                                                intro b hb
                                                obtain ⟨ha, hb2⟩ := hdb b hb
                                                refine ⟨ha, ?_⟩
                                                simp only [List.length_append,
                                                  List.length_cons, List.length_nil]
                                                omega)
                                          have hlen1 : st.dictionary.length + 1
                                              ≤ st2.dictionary.length := by simpa using l1
                                          obtain ⟨l2, rb2, d3, db3⟩ :=
                                            ih _ _ _ _ _ _ _ _ _ _ h
                                              (by
                                                simp only [List.length_set]
                                                refine RefsOK_append _ _ _
                                                  (RefsOK_mono _ _ _ (by omega) hbc) ?_
                                                exact RefsOK.beginLoop _ _ _ (Or.inr rfl)
                                                  (by omega) (by omega) RefsOK.nil)
                                              (dictOK_set _ _ _ d2 rbody)
                                              (by
                                                intro b hb
                                                simp only [List.length_set]
                                                exact db2 b hb)
                                          refine ⟨?_, rb2, d3, db3⟩
                                          simp only [List.length_set] at l2
                                          omega
                                      | some subwhilePos =>
                                        simp only [] at h
                                        split at h
                                        · exact Except.noConfusion h
                                        · rename_i precondition st2 hbody1
                                          split at h
                                          · exact Except.noConfusion h
                                          · rename_i postcondition st5 hbody2
                                            obtain ⟨l1, rpre, d2, db2⟩ :=
                                              ih _ _ _ _ _ _ _ _ _ _ hbody1 RefsOK.nil
                                                (dictOK_push _ hdict)
                                                (by
                                                  intro b hb
                                                  obtain ⟨ha, hb2⟩ := hdb b hb
                                                  refine ⟨ha, ?_⟩
                                                  simp only [List.length_append,
                                                    List.length_cons, List.length_nil]
                                                  omega)
                                            have hlen1 : st.dictionary.length + 1
                                                ≤ st2.dictionary.length := by simpa using l1
                                            obtain ⟨l2, rpost, d5, db5⟩ :=
                                              ih _ _ _ _ _ _ _ _ _ _ hbody2 RefsOK.nil
                                                (by
                                                  refine dictOK_push _ ?_
                                                  exact dictOK_set _ _ _ d2 rpre)
                                                (by
                                                  intro b hb
                                                  obtain ⟨ha, hb2⟩ := db2 b hb
                                                  refine ⟨ha, ?_⟩
                                                  simp only [List.length_append,
                                                    List.length_cons, List.length_nil,
                                                    List.length_set] at *
                                                  omega)
                                            have hlen2 : st2.dictionary.length + 1
                                                ≤ st5.dictionary.length := by
                                              simpa [List.length_set] using l2
                                            obtain ⟨l3, rb3, d6, db6⟩ :=
                                              ih _ _ _ _ _ _ _ _ _ _ h
                                                (by
                                                  simp only [List.length_set]
                                                  refine RefsOK_append _ _ _
                                                    (RefsOK_mono _ _ _ (by omega) hbc) ?_
                                                  exact RefsOK.whileLoop _ _ _
                                                    (by omega) (by omega)
                                                    (by omega) (by omega)
                                                    RefsOK.nil)
                                                (dictOK_set _ _ _ d5 rpost)
                                                (by
                                                  intro b hb
                                                  simp only [List.length_set]
                                                  exact db5 b hb)
                                            refine ⟨?_, rb3, d6, db6⟩
                                            simp only [List.length_set] at l3
                                            omega
                                · simp only [c14, reduceIte] at h
                                  by_cases c15 : toks.getD pos "" = "exit"
                                  · simp only [c15, reduceIte] at h
                                    exact ih _ _ _ _ _ _ _ _ _ _ h
                                      (RefsOK_append _ _ _ hbc
                                        (RefsOK.exit_ _ _ RefsOK.nil)) hdict hdb
                                  · simp only [c15, reduceIte] at h
                                    by_cases cv : st.is_variable (toks.getD pos "") = true
                                    · simp only [cv, reduceIte] at h
                                      iterate 6 (all_goals (try split at h))
                                      all_goals
                                        first
                                        | exact Except.noConfusion h
                                        | exact ih _ _ _ _ _ _ _ _ _ _ h
                                            (RefsOK_append _ _ _ hbc
                                              (RefsOK.op2 _ _ _ (by decide) (by decide)
                                                RefsOK.nil)) hdict hdb
                                    · simp only [cv, Bool.false_eq_true, reduceIte] at h
                                      by_cases cin : st.is_input (toks.getD pos "") = true
                                      · simp only [cin, reduceIte] at h
                                        iterate 14 (all_goals (try split at h))
                                        all_goals
                                          first
                                          | exact Except.noConfusion h
                                          | exact ih _ _ _ _ _ _ _ _ _ _ h
                                              (RefsOK_append _ _ _ hbc
                                                (RefsOK.op2 _ _ _ (by decide) (by decide)
                                                  RefsOK.nil)) hdict hdb
                                          | exact ih _ _ _ _ _ _ _ _ _ _ h
                                              (RefsOK_append _ _ _ hbc
                                                (RefsOK.io2 _ _ _ (by omega)
                                                  RefsOK.nil)) hdict hdb
                                          | exact ih _ _ _ _ _ _ _ _ _ _ h
                                              (RefsOK_append _ _ _ hbc
                                                (RefsOK.io3 _ _ _ _ (by omega)
                                                  RefsOK.nil)) hdict hdb
                                      · simp only [cin, Bool.false_eq_true, reduceIte] at h
                                        by_cases cout : st.is_output (toks.getD pos "") = true
                                        · simp only [cout, reduceIte] at h
                                          iterate 8 (all_goals (try split at h))
                                          all_goals
                                            first
                                            | exact Except.noConfusion h
                                            | exact ih _ _ _ _ _ _ _ _ _ _ h
                                                (RefsOK_append _ _ _ hbc
                                                  (RefsOK.op2 _ _ _ (by decide) (by decide)
                                                    RefsOK.nil)) hdict hdb
                                        · simp only [cout, Bool.false_eq_true, reduceIte] at h
                                          cases hfb : (genericBuiltinWords.filter
                                              (fun p => p.1 = toks.getD pos "")).head? with
                                          | some pair =>
                                            rw [hfb] at h
                                            simp only [] at h
                                            have hmem : pair ∈ genericBuiltinWords :=
                                              (List.mem_filter.mp
                                                (List.mem_of_mem_head? hfb)).1
                                            iterate 6 (all_goals (try split at h))
                                            all_goals
                                              first
                                              | exact Except.noConfusion h
                                              | exact ih _ _ _ _ _ _ _ _ _ _ h
                                                  (RefsOK_append _ _ _ hbc
                                                    (RefsOK.single _ _
                                                      (Or.inr (Or.inr
                                                        (builtin_range pair hmem)))
                                                      RefsOK.nil)) hdict hdb
                                          | none =>
                                            rw [hfb] at h
                                            simp only [] at h
                                            cases hfd : ((st.dictionaryNames.zip
                                                st.dictionaryBytecodes).filter
                                                (fun p => p.1 = toks.getD pos "")).head? with
                                            | some pair =>
                                              rw [hfd] at h
                                              simp only [] at h
                                              have hmem : pair.2 ∈ st.dictionaryBytecodes :=
                                                (List.of_mem_zip (List.mem_filter.mp
                                                  (List.mem_of_mem_head? hfd)).1).2
                                              exact ih _ _ _ _ _ _ _ _ _ _ h
                                                (RefsOK_append _ _ _ hbc
                                                  (RefsOK.call _ _ (hdb pair.2 hmem).1
                                                    (hdb pair.2 hmem).2 RefsOK.nil))
                                                hdict hdb
                                            | none =>
                                              rw [hfd] at h
                                              simp only [] at h
                                              cases hint : is_integer (toks.getD pos "") with
                                              | error e =>
                                                rw [hint] at h
                                                simp only [] at h
                                                exact Except.noConfusion h
                                              | ok o =>
                                                rw [hint] at h
                                                cases o with
                                                | none =>
                                                  simp only [] at h
                                                  exact Except.noConfusion h
                                                | some num =>
                                                  simp only [] at h
                                                  exact ih _ _ _ _ _ _ _ _ _ _ h
                                                    (RefsOK_append _ _ _ hbc
                                                      (RefsOK.literal _ _ RefsOK.nil))
                                                    hdict hdb

/-- C4: for every source text that compiles successfully, the bytecode
store splits into segments with `offsets` the cumulative flattening
boundaries: `offsets[0] = 0`, the last entry is `|bytecodes|`, the
vector is monotone non-decreasing (NOT strictly increasing: an empty
body contributes an equal adjacent pair), has one entry per segment plus
one, and every segment-reference operand `b ≥ BOUND_DICTIONARY` of every
instruction points below `|segments|`. -/
theorem c4_offsets (source : String) (smax rmax fuel : Nat) (m : Machine)
    (h : compileSource source smax rmax fuel = Except.ok m) :
    ∃ segments : List (List Int),
      m.bytecodes = segments.flatten ∧
      m.offsets = flattenOffsets segments ∧
      m.offsets.head? = some 0 ∧
      List.Chain' (· ≤ ·) m.offsets ∧
      m.offsets.getLastD 0 = m.bytecodes.length ∧
      m.offsets.length = segments.length + 1 ∧
      ∀ seg ∈ segments, RefsOK segments.length seg := by
  rw [compileSource] at h
  simp only [compile] at h
  cases hp : parse "" (tokenize source) 0 (tokenize source).length []
      { emptyCompilerState with dictionary := [[]] } 0 0 fuel with
  | error e => rw [hp] at h; exact Except.noConfusion h
  | ok p =>
    obtain ⟨bc, st⟩ := p
    rw [hp] at h
    simp only [] at h
    injection h with h1
    subst h1
    obtain ⟨l1, rbc, dok, dbok⟩ := parse_refs fuel _ _ _ _ _ _ _ _ _ _ hp RefsOK.nil
      (by
        intro seg hs
        rw [List.mem_singleton.mp hs]
        exact RefsOK.nil)
      (by
        intro b hb
        exact absurd hb (List.not_mem_nil b))
    refine ⟨st.dictionary.set 0 bc, rfl, rfl, rfl, ?_, ?_, ?_, ?_⟩
    · exact flattenOffsetsFrom_chain _ 0
    · rw [flattenOffsets, List.getLastD_cons, flattenOffsetsFrom_getLastD]
      simp
    · rw [flattenOffsets, List.length_cons, flattenOffsetsFrom_length]
    · exact dictOK_set _ _ _ dok rbc

/-- C4 (witness): the program `0 if then` compiles; its machine satisfies
the amended offsets invariant, with offsets `[0, 4, 4]` (the empty
if-body contributes the repeated `4`). -/
theorem c4_offsets_witness :
    ∃ m, compileSource "0 if then" 1024 1024 1000000 = Except.ok m ∧
      m.offsets = [0, 4, 4] ∧
      m.offsets.head? = some 0 ∧
      List.Chain' (· ≤ ·) m.offsets ∧
      m.offsets.getLastD 0 = m.bytecodes.length := by
  cases hc : compileSource "0 if then" 1024 1024 1000000 with
  | error e =>
    have hs : (compileSource "0 if then" 1024 1024 1000000).toOption.isSome = true := by
      decide
    rw [hc] at hs
    simp [Except.toOption] at hs
  | ok m =>
    obtain ⟨segs, _, _, hhead, hchain, hlast, _, _⟩ :=
      c4_offsets "0 if then" 1024 1024 1000000 m hc
    refine ⟨m, rfl, ?_, hhead, hchain, hlast⟩
    have hoff : (compileSource "0 if then" 1024 1024 1000000).toOption.map
        Machine.offsets = some [0, 4, 4] := by decide
    rw [hc] at hoff
    exact Option.some.inj hoff

/-- C4 (counterexample): `0 if then` compiles with an empty if-body
segment, so its offsets vector `[0, 4, 4]` is not strictly increasing,
refuting the claim for programs with empty bodies. -/
theorem c4_counterexample :
    compiledOffsets "0 if then" = some [0, 4, 4] ∧
    ¬ List.Chain' (· < ·) [0, 4, 4] := by
  constructor
  · decide
  · intro hch
    exact absurd (List.chain'_cons.mp ((List.chain'_cons.mp hch).2)).1 (by omega)

end AwkwardForth
